import Mathlib

/-! Property-change waiting in govmomi.

A shallow embedding of the two `WaitForIP` routines of the repository:

* `govc/vm/info.go`, `WaitForIP`: creates a property collector, defers its
  `Destroy`, creates a filter on `guest.ipAddress` and polls `WaitForUpdates`
  until the selected change carries a value;
* `object/virtual_machine.go`, `VirtualMachine.WaitForIP`: hands a predicate
  closure to `property.Wait` and reports the captured address.

Remote calls are the only effects.  The remote side is a script of replies
(`Collector`); a run yields the trace of calls issued and the way the Go
function ended (`Run`).
-/

namespace Govmomi

/-! ## Data model (vim25/types, as far as the two routines touch it) -/

/-- Go's `error` interface value, identified by its message. -/
structure GoError where
  msg : String
deriving DecidableEq, Repr

/-- The Go type `types.ManagedObjectReference` (field `Typ` is Go's `Type`): compared
with `==` in the source. -/
structure ManagedObjectReference where
  Typ : String
  Value : String
deriving DecidableEq, Repr

/-- Modelled from the spec: the operation tags of `types.PropertyChangeOp`
(package vim25/types is not under src/): Assign, Remove, Add and Indirect. -/
inductive PropertyChangeOp where
  | add
  | remove
  | assign
  | indirectRemove
deriving DecidableEq, Repr

/-- The assign tag, `types.PropertyChangeOpAssign` in the source. -/
abbrev PropertyChangeOpAssign : PropertyChangeOp := PropertyChangeOp.assign

/-- A dynamically typed value (`types.AnyType`, Go's `interface{}`) when it is
not nil: a string, or a value of some other dynamic type. -/
inductive AnyType where
  | str (s : String)
  | int (n : Int)
  | bool (b : Bool)
deriving DecidableEq, Repr

/-- The Go type `types.PropertyChange`; `Val = none` is the nil interface value. -/
structure PropertyChange where
  Name : String
  Op : PropertyChangeOp
  Val : Option AnyType
deriving DecidableEq, Repr

/-- The Go type `types.ObjectUpdate`, restricted to the fields read by the source. -/
structure ObjectUpdate where
  Obj : ManagedObjectReference
  ChangeSet : List PropertyChange
deriving DecidableEq, Repr

/-- The Go type `types.PropertyFilterUpdate`, restricted to the field read by the source. -/
structure PropertyFilterUpdate where
  ObjectSet : List ObjectUpdate
deriving DecidableEq, Repr

/-- The Go type `types.UpdateSet`: the reply of one `WaitForUpdates` call. -/
structure UpdateSet where
  Version : String
  FilterSet : List PropertyFilterUpdate
deriving DecidableEq, Repr

/-- The request built at info.go:171-185: one object, one property spec. -/
structure CreateFilter where
  Obj : ManagedObjectReference
  PathSet : List String
  Typ : String
deriving DecidableEq, Repr

/-! ## Remote side and runs -/

/-- One remote call as it appears in the trace.  `destroy` carries the reply of
the remote side, which the deferred call discards. -/
inductive Call where
  | newPropertyCollector
  | createFilter (req : CreateFilter)
  | waitForUpdates (version : String)
  | destroy (reply : Option GoError)
deriving DecidableEq, Repr

/-- How a Go function ended: it returned an error value (`none` is nil), it
panicked, or it is still blocked in a remote call that has not answered. -/
inductive Outcome where
  | returned (err : Option GoError)
  | panicked (msg : String)
  | blocked
deriving DecidableEq, Repr

/-- The trace of remote calls of a run together with its outcome. -/
structure Run where
  trace : List Call
  outcome : Outcome
deriving DecidableEq, Repr

/-- The remote side as a script: the reply to `NewPropertyCollector`, to
`CreateFilter`, to the successive `WaitForUpdates` calls (the i-th call receives
the i-th entry; after the last entry the call does not answer) and to `Destroy`. -/
structure Collector where
  newPropertyCollector : Option GoError
  createFilter : Option GoError
  updates : List (Except GoError UpdateSet)
  destroy : Option GoError

/-- Number of `CreateFilter` calls in a trace. -/
def countCreateFilter (t : List Call) : Nat :=
  t.countP (fun c => match c with | Call.createFilter _ => true | _ => false)

/-- Number of `WaitForUpdates` calls in a trace. -/
def countWaitForUpdates (t : List Call) : Nat :=
  t.countP (fun c => match c with | Call.waitForUpdates _ => true | _ => false)

/-- Number of `Destroy` calls in a trace. -/
def countDestroy (t : List Call) : Nat :=
  t.countP (fun c => match c with | Call.destroy _ => true | _ => false)

/-- The version cursors of the `WaitForUpdates` calls of a trace, in call order. -/
def cursors : List Call → List String
  | [] => []
  | Call.waitForUpdates v :: t => v :: cursors t
  | _ :: t => cursors t

/-! ## govc/vm/info.go -/

namespace Govc

/-- The panic message of info.go:222. -/
def panicMsg : String := "expected to receive property change"

/-- The innermost loop, info.go:205-216, over one `ChangeSet`: skip records of
another name, skip records whose op is not assign, take the first remaining
record and break.  `prop` is the value of the variable on entry. -/
def scanChangeSet : List PropertyChange → Option PropertyChange → Option PropertyChange
  | [], prop => prop
  | c :: rest, prop =>
    if c.Name ≠ "guest.ipAddress" then scanChangeSet rest prop
    else if c.Op ≠ PropertyChangeOpAssign then scanChangeSet rest prop
    else some c

/-- The loop over one `ObjectSet`, info.go:203-217: only object updates of the
watched VM are scanned; the break of the inner loop does not leave this one. -/
def scanObjectSet (vm : ManagedObjectReference) :
    List ObjectUpdate → Option PropertyChange → Option PropertyChange
  | [], prop => prop
  | os :: rest, prop =>
    if os.Obj = vm then scanObjectSet vm rest (scanChangeSet os.ChangeSet prop)
    else scanObjectSet vm rest prop

/-- The loop over `res.FilterSet`, info.go:202-219. -/
def scanFilterSet (vm : ManagedObjectReference) :
    List PropertyFilterUpdate → Option PropertyChange → Option PropertyChange
  | [], prop => prop
  | fs :: rest, prop => scanFilterSet vm rest (scanObjectSet vm fs.ObjectSet prop)

/-- The change selected from one reply: `prop` after info.go:193-219, starting from nil. -/
def selectProp (vm : ManagedObjectReference) (res : UpdateSet) : Option PropertyChange :=
  scanFilterSet vm res.FilterSet none

/-- The polling loop, info.go:192-228, from the cursor `version` against the
remaining replies. -/
def pollLoop (vm : ManagedObjectReference) : List (Except GoError UpdateSet) → String → Run
  | [], version => ⟨[Call.waitForUpdates version], Outcome.blocked⟩
  | Except.error err :: _, version =>
    ⟨[Call.waitForUpdates version], Outcome.returned (some err)⟩
  | Except.ok res :: rest, version =>
    match selectProp vm res with
    | none => ⟨[Call.waitForUpdates version], Outcome.panicked panicMsg⟩
    | some prop =>
      if prop.Val ≠ none then ⟨[Call.waitForUpdates version], Outcome.returned none⟩
      else
        let r := pollLoop vm rest res.Version
        ⟨Call.waitForUpdates version :: r.trace, r.outcome⟩

/-- The request of info.go:171-185. -/
def filterRequest (vm : ManagedObjectReference) : CreateFilter :=
  ⟨vm, ["guest.ipAddress"], "VirtualMachine"⟩

/-- The body of `WaitForIP` after the `defer`, info.go:171-228. -/
def waitBody (vm : ManagedObjectReference) (c : Collector) : Run :=
  match c.createFilter with
  | some err => ⟨[Call.createFilter (filterRequest vm)], Outcome.returned (some err)⟩
  | none =>
    let r := pollLoop vm c.updates ""
    ⟨Call.createFilter (filterRequest vm) :: r.trace, r.outcome⟩

/-- The function `WaitForIP` of info.go:163-229.  The deferred `p.Destroy()` runs when the
body returns or panics, its reply is discarded; it does not run while the body
is blocked in a call. -/
def WaitForIP (vm : ManagedObjectReference) (c : Collector) : Run :=
  match c.newPropertyCollector with
  | some err => ⟨[Call.newPropertyCollector], Outcome.returned (some err)⟩
  | none =>
    let r := waitBody vm c
    match r.outcome with
    | Outcome.blocked => ⟨Call.newPropertyCollector :: r.trace, Outcome.blocked⟩
    | o => ⟨Call.newPropertyCollector :: (r.trace ++ [Call.destroy c.destroy]), o⟩

/-- Whether a successful reply leaves the loop waiting: a change was selected
(no panic at info.go:221) and its value is nil (no return at info.go:225). -/
def keepsWaiting (vm : ManagedObjectReference) (res : UpdateSet) : Bool :=
  match selectProp vm res with
  | some prop => prop.Val.isNone
  | none => false

/-- The cursor the loop holds after the replies `pre`, entered with `v`: the
version of the last reply (info.go:200). -/
def lastVersion : String → List UpdateSet → String
  | v, [] => v
  | _, r :: rs => lastVersion r.Version rs

/-- The cursors of the calls answered by the replies `pre`, the loop entered with `v`. -/
def cursorsOf : String → List UpdateSet → List String
  | _, [] => []
  | v, r :: rs => v :: cursorsOf r.Version rs

/-- Whether a reply carries a `guest.ipAddress` record with op assign in an
object update of the VM. -/
def hasAssign (vm : ManagedObjectReference) (res : UpdateSet) : Prop :=
  ∃ fs ∈ res.FilterSet, ∃ os ∈ fs.ObjectSet, os.Obj = vm ∧
    ∃ ch ∈ os.ChangeSet, ch.Name = "guest.ipAddress" ∧ ch.Op = PropertyChangeOpAssign

end Govc

/-! ## object/virtual_machine.go -/

namespace Object

/-- What the watcher hands over in one iteration: a batch of change records
delivered to the predicate, or the failure of the poll. -/
inductive Delivery where
  | batch (pc : List PropertyChange)
  | fail (err : GoError)
deriving DecidableEq, Repr

/-- The panic of a failed type assertion `c.Val.(string)`, virtual_machine.go:169. -/
def assertMsg : String := "interface conversion: value is not a string"

/-- Modelled from the spec: `property.Wait` (package property is not under
src/).  Section 4.3: every delivered batch is handed to the caller's predicate
in delivery order; `true` ends the watch with success (nil), `false` polls
again; a poller error ends the watch with that error.  The predicate is a Go
closure: `s` is the state of the variables it captures.  When the deliveries
run out the poll does not answer. -/
def Wait {σ : Type} (f : List PropertyChange → σ → Except String (Bool × σ)) :
    List Delivery → σ → Outcome × σ
  | [], s => (Outcome.blocked, s)
  | Delivery.fail err :: _, s => (Outcome.returned (some err), s)
  | Delivery.batch pc :: rest, s =>
    match f pc s with
    | Except.error m => (Outcome.panicked m, s)
    | Except.ok (true, s1) => (Outcome.returned none, s1)
    | Except.ok (false, s1) => Wait f rest s1

/-- The predicate closure of `VirtualMachine.WaitForIP`, virtual_machine.go:157-174.
The captured variable `ip` is threaded through; `Except.error` is a panic. -/
def ipPredicate : List PropertyChange → String → Except String (Bool × String)
  | [], ip => Except.ok (false, ip)
  | c :: pc, ip =>
    if c.Name ≠ "guest.ipAddress" then ipPredicate pc ip
    else if c.Op ≠ PropertyChangeOpAssign then ipPredicate pc ip
    else
      match c.Val with
      | none => ipPredicate pc ip
      | some (AnyType.str s) => Except.ok (true, s)
      | some _ => Except.error assertMsg

/-- The end of `VirtualMachine.WaitForIP`, virtual_machine.go:176-180: the pair returned for
the error of the wait and the captured `ip`. -/
def waitResult (err : Option GoError) (ip : String) : String × Option GoError :=
  match err with
  | some e => ("", some e)
  | none => (ip, none)

/-- How a call of `VirtualMachine.WaitForIP` ends. -/
inductive IPOutcome where
  | returned (ip : String) (err : Option GoError)
  | panicked (msg : String)
  | blocked
deriving DecidableEq, Repr

/-- The method `VirtualMachine.WaitForIP`, virtual_machine.go:153-181. -/
def VirtualMachine.WaitForIP (ds : List Delivery) : IPOutcome :=
  match Wait ipPredicate ds "" with
  | (Outcome.returned err, ip) => IPOutcome.returned (waitResult err ip).1 (waitResult err ip).2
  | (Outcome.panicked m, _) => IPOutcome.panicked m
  | (Outcome.blocked, _) => IPOutcome.blocked

/-- Whether a record is a `guest.ipAddress` assign with a present value. -/
def isPresentAssign (c : PropertyChange) : Prop :=
  c.Name = "guest.ipAddress" ∧ c.Op = PropertyChangeOpAssign ∧ c.Val ≠ none

end Object

/-! ## client.go: waiting without a cancellation signal -/

/-- Go's `context.Context` as far as a wait reads it: `Done n` tells whether the
context is cancelled by the time the poll number `n` is in flight. -/
structure Context where
  Done : Nat → Bool

/-- The context `context.TODO()`, passed at client.go:101 and virtual_machine.go:157: it is
never cancelled. -/
def Context.TODO : Context := ⟨fun _ => false⟩

/-- The error `context.Canceled`, with which a cancelled wait ends. -/
def errCanceled : GoError := ⟨"context canceled"⟩

/-- The method `Client.WaitForProperties`, client.go:100-102.  `property.Wait` is not
under src/ and is the parameter `wait`; `args` stands for the collector, the
object, the paths and the predicate, which are passed on unchanged.  The method
has no parameter for a context: the context handed over is `context.TODO()`. -/
def Client.WaitForProperties {α : Type} (wait : Context → α → Outcome) (args : α) : Outcome :=
  wait Context.TODO args

/-- Modelled from the spec: the cancellable watch of section 5 (`property.Wait`
with its context; package property is not under src/).  A cancellation that
is triggered while poll number `n` is in flight aborts that poll and ends the
watch with `context.Canceled`; otherwise the watch proceeds as in section 4.3. -/
def Object.WaitCtx {σ : Type} (ctx : Context)
    (f : List PropertyChange → σ → Except String (Bool × σ)) :
    Nat → List Object.Delivery → σ → Outcome × σ
  | n, [], s =>
    if ctx.Done n then (Outcome.returned (some errCanceled), s) else (Outcome.blocked, s)
  | n, Object.Delivery.fail err :: _, s =>
    if ctx.Done n then (Outcome.returned (some errCanceled), s)
    else (Outcome.returned (some err), s)
  | n, Object.Delivery.batch pc :: rest, s =>
    if ctx.Done n then (Outcome.returned (some errCanceled), s)
    else
      match f pc s with
      | Except.error m => (Outcome.panicked m, s)
      | Except.ok (true, s1) => (Outcome.returned none, s1)
      | Except.ok (false, s1) => Object.WaitCtx ctx f (n + 1) rest s1

/-! ## govc/vm/info.go: the command -/

/-- The type `types.GuestInfo`, restricted to the field read by `Run`. -/
structure Mo.GuestInfo where
  IpAddress : String
deriving DecidableEq, Repr

/-- The type `mo.VirtualMachine` as far as `Run` reads it.  `Guest` is a pointer
(`none` is nil); `Name` stands for the rest of the snapshot. -/
structure Mo.VirtualMachine where
  Name : String
  Guest : Option Mo.GuestInfo
deriving DecidableEq, Repr

namespace Govc

/-- The panic of a nil pointer dereference. -/
def nilMsg : String := "invalid memory address or nil pointer dereference"

/-- The command `info` (info.go:34-41) with what its collaborators answer during
one `Run`: the flag `WaitForIP` (`-waitip`, info.go:51-53), `OutputFlag.JSON`, the error of
`c.Client()`, `SearchFlag.Isset()` and the result of `SearchFlag.VirtualMachine()`, the
argument `f.Arg(0)`, the references listed by `ListFlag.List`, the replies to the
successive `Properties` reads (after the last one the read does not answer), the
collectors of the successive `WaitForIP` calls, and the error of `WriteResult`. -/
structure info where
  WaitForIP : Bool
  JSON : Bool
  client : Option GoError
  searchIsset : Bool
  searchVM : Except GoError ManagedObjectReference
  arg : String
  list : Except GoError (List ManagedObjectReference)
  reads : List (Except GoError Mo.VirtualMachine)
  waits : List Collector
  writeResult : Option GoError

/-- A call made by `Run`: a `Properties` read with its property list and the
snapshot it loaded (`none` when it failed or did not answer), a `WaitForIP` call with
its run, or `WriteResult` with the snapshot written. -/
inductive RunCall where
  | properties (props : List String) (snapshot : Option Mo.VirtualMachine)
  | waitForIP (run : Run)
  | writeResult (vm : Mo.VirtualMachine)
deriving DecidableEq, Repr

/-- How the loop of info.go:122-139 is left: by `break` with the snapshot read, or
by ending `Run`. -/
inductive LoopEnd where
  | done (res : Mo.VirtualMachine)
  | ended (o : Outcome)
deriving DecidableEq, Repr

/-- The calls of a run of `Run` and its outcome. -/
structure InfoRun where
  calls : List RunCall
  outcome : Outcome
deriving DecidableEq, Repr

/-- Number of `Properties` reads among the calls. -/
def countProperties (t : List RunCall) : Nat :=
  t.countP (fun c => match c with | RunCall.properties _ _ => true | _ => false)

/-- Number of `WaitForIP` calls among the calls. -/
def countWaitForIP (t : List RunCall) : Nat :=
  t.countP (fun c => match c with | RunCall.waitForIP _ => true | _ => false)

/-- The resolution of the virtual machine, info.go:84-111. -/
def info.resolve (c : info) : Except GoError ManagedObjectReference :=
  if c.searchIsset then c.searchVM
  else if c.arg = "" then Except.error ⟨"no argument"⟩
  else
    match c.list with
    | Except.error err => Except.error err
    | Except.ok es =>
      match es.find? (fun ref => ref.Typ = "VirtualMachine") with
      | some ref => Except.ok ref
      | none => Except.error ⟨"argument doesn\x27t resolve to VM"⟩

/-- The property list of info.go:116-120; the empty list is nil, load everything. -/
def info.props (c : info) : List String :=
  if c.JSON then [] else ["summary", "guest"]

/-- The loop of info.go:122-139 against the remaining `Properties` replies and the
collectors of the `WaitForIP` calls still to come; `flag` is `c.WaitForIP`. -/
def readLoop (flag : Bool) (vm : ManagedObjectReference) (props : List String) :
    List (Except GoError Mo.VirtualMachine) → List Collector → List RunCall × LoopEnd
  | [], _ => ([RunCall.properties props none], LoopEnd.ended Outcome.blocked)
  | Except.error err :: _, _ =>
    ([RunCall.properties props none], LoopEnd.ended (Outcome.returned (some err)))
  | Except.ok res :: reads, waits =>
    if flag then
      match res.Guest with
      | none => ([RunCall.properties props (some res)], LoopEnd.ended (Outcome.panicked nilMsg))
      | some guest =>
        if guest.IpAddress = "" then
          match waits with
          | [] =>
            ([RunCall.properties props (some res),
                RunCall.waitForIP ⟨[Call.newPropertyCollector], Outcome.blocked⟩],
              LoopEnd.ended Outcome.blocked)
          | w :: waits1 =>
            match (Govc.WaitForIP vm w).outcome with
            | Outcome.returned none =>
              let r := readLoop flag vm props reads waits1
              (RunCall.properties props (some res) :: RunCall.waitForIP (Govc.WaitForIP vm w) ::
                r.1, r.2)
            | o =>
              ([RunCall.properties props (some res), RunCall.waitForIP (Govc.WaitForIP vm w)],
                LoopEnd.ended o)
        else ([RunCall.properties props (some res)], LoopEnd.done res)
    else ([RunCall.properties props (some res)], LoopEnd.done res)

/-- The method `Run` of info.go:76-142. -/
def info.Run (c : info) : InfoRun :=
  match c.client with
  | some err => ⟨[], Outcome.returned (some err)⟩
  | none =>
    match c.resolve with
    | Except.error err => ⟨[], Outcome.returned (some err)⟩
    | Except.ok vm =>
      match readLoop c.WaitForIP vm c.props c.reads c.waits with
      | (t, LoopEnd.ended o) => ⟨t, o⟩
      | (t, LoopEnd.done res) => ⟨t ++ [RunCall.writeResult res], Outcome.returned c.writeResult⟩

end Govc

/-! ## client.go: `NewClient` -/

/-- The type `url.URL` as far as `NewClient` reads it; `User = none` is a nil `*url.Userinfo`. -/
structure URL where
  Host : String
  User : Option String
deriving DecidableEq, Repr

/-- A `vim25.Client`, identified by the URL and the flag of the soap client it
was created from (client.go:51-52). -/
structure Vim25Client where
  url : URL
  insecure : Bool
deriving DecidableEq, Repr

/-- A `session.Manager`, identified by the client it was created for. -/
structure SessionManager where
  client : Vim25Client
deriving DecidableEq, Repr

/-- The struct `Client` of client.go:30-34; `VimClient` is the embedded `*vim25.Client`. -/
structure Client where
  VimClient : Vim25Client
  SessionManager : SessionManager
deriving DecidableEq, Repr

/-- What the server answers to `NewClient`: the error of `vim25.NewClient` and the
error of `SessionManager.Login` (`none` is nil). -/
structure Server where
  vim25NewClient : Option GoError
  login : Option GoError

/-- A remote call made by `NewClient`. -/
inductive ClientCall where
  | vim25NewClient (u : URL) (insecure : Bool)
  | login (user : String)
deriving DecidableEq, Repr

/-- The calls of `NewClient` and the pair it returns (`client = none` is a nil
pointer, `err = none` a nil error). -/
structure NewClientRun where
  calls : List ClientCall
  client : Option Client
  err : Option GoError
deriving DecidableEq, Repr

/-- Number of `SessionManager.Login` calls. -/
def countLogin (t : List ClientCall) : Nat :=
  t.countP (fun c => match c with | ClientCall.login _ => true | _ => false)

/-- The function `NewClientFromClient`, client.go:39-46: it always returns a client and a
nil error. -/
def NewClientFromClient (vimClient : Vim25Client) : Client × Option GoError :=
  (⟨vimClient, ⟨vimClient⟩⟩, none)

/-- The function `NewClient`, client.go:50-71. -/
def NewClient (srv : Server) (u : URL) (insecure : Bool) : NewClientRun :=
  match srv.vim25NewClient with
  | some err => ⟨[ClientCall.vim25NewClient u insecure], none, some err⟩
  | none =>
    match NewClientFromClient ⟨u, insecure⟩ with
    | (_, some err) => ⟨[ClientCall.vim25NewClient u insecure], none, some err⟩
    | (c, none) =>
      match u.User with
      | some user =>
        match srv.login with
        | some err =>
          ⟨[ClientCall.vim25NewClient u insecure, ClientCall.login user], none, some err⟩
        | none =>
          ⟨[ClientCall.vim25NewClient u insecure, ClientCall.login user], some c, none⟩
      | none => ⟨[ClientCall.vim25NewClient u insecure], some c, none⟩

/-! ## object/virtual_machine.go: device configuration -/

namespace Object

/-- The operation tags of `types.VirtualDeviceConfigSpecOperation` named in the source
(package vim25/types is not under src/). -/
inductive VirtualDeviceConfigSpecOperation where
  | add
  | edit
  | remove
deriving DecidableEq, Repr

/-- The values of `types.VirtualDeviceConfigSpecFileOperation` that occur in the source:
the empty string of virtual_machine.go:215 and the three named tags. -/
inductive VirtualDeviceConfigSpecFileOperation where
  | empty
  | create
  | destroy
  | replace
deriving DecidableEq, Repr

/-- The type `types.VirtualDiskFlatVer2BackingInfo`: `Parent` is the chain of parent
backings, nearest first, given by their file names; it is empty when the
`Parent` pointer is nil. -/
structure VirtualDiskFlatVer2BackingInfo where
  FileName : String
  Parent : List String
deriving DecidableEq, Repr

/-- The interface `types.BaseVirtualDeviceBackingInfo`: a pointer to a flat-ver2 disk
backing (`none` is a nil pointer of that type) or a backing of another type. -/
inductive BaseVirtualDeviceBackingInfo where
  | flatVer2 (b : Option VirtualDiskFlatVer2BackingInfo)
  | other (typeName : String)
deriving DecidableEq, Repr

/-- The type `types.VirtualDisk` as far as the source reads it; `Backing = none` is a nil
interface value. -/
structure VirtualDisk where
  Key : Int
  CapacityInKB : Int
  Backing : Option BaseVirtualDeviceBackingInfo
deriving DecidableEq, Repr

/-- The interface `types.BaseVirtualDevice`: a pointer to a virtual disk (`none` is a nil
pointer of that type) or a device of another type. -/
inductive BaseVirtualDevice where
  | disk (d : Option VirtualDisk)
  | other (typeName : String) (key : Int)
deriving DecidableEq, Repr

/-- The type `types.VirtualDeviceConfigSpec`. -/
structure VirtualDeviceConfigSpec where
  Device : BaseVirtualDevice
  Operation : VirtualDeviceConfigSpecOperation
  FileOperation : VirtualDeviceConfigSpecFileOperation
deriving DecidableEq, Repr

/-- The type `types.VirtualMachineConfigSpec`, restricted to `DeviceChange`. -/
structure VirtualMachineConfigSpec where
  DeviceChange : List VirtualDeviceConfigSpec
deriving DecidableEq, Repr

/-- Whether a disk is a child disk, virtual_machine.go:209-212.  `b.Parent` is read through
the pointer `b`: a nil flat-ver2 pointer faults (`Except.error` is a panic). -/
def childDisk (disk : VirtualDisk) : Except String Bool :=
  match disk.Backing with
  | some (BaseVirtualDeviceBackingInfo.flatVer2 none) => Except.error Govc.nilMsg
  | some (BaseVirtualDeviceBackingInfo.flatVer2 (some b)) => Except.ok (b.Parent != [])
  | _ => Except.ok false

/-- The body of the loop of `configureDevice`, virtual_machine.go:199-218: the config spec
generated for one device.  `disk.CapacityInKB` is read only when `op` is add, through
the pointer `disk`: a nil disk pointer faults there. -/
def deviceChange (op : VirtualDeviceConfigSpecOperation)
    (fop : VirtualDeviceConfigSpecFileOperation) (device : BaseVirtualDevice) :
    Except String VirtualDeviceConfigSpec :=
  match device with
  | BaseVirtualDevice.disk dp =>
    if op = VirtualDeviceConfigSpecOperation.add then
      match dp with
      | none => Except.error Govc.nilMsg
      | some disk =>
        if disk.CapacityInKB = 0 then
          match childDisk disk with
          | Except.error m => Except.error m
          | Except.ok child =>
            if !child then Except.ok ⟨device, op, VirtualDeviceConfigSpecFileOperation.empty⟩
            else Except.ok ⟨device, op, fop⟩
        else Except.ok ⟨device, op, fop⟩
    else Except.ok ⟨device, op, fop⟩
  | BaseVirtualDevice.other _ _ =>
    Except.ok ⟨device, op, VirtualDeviceConfigSpecFileOperation.empty⟩

/-- The loop of `configureDevice`, virtual_machine.go:198-221: each generated spec is
appended to `spec.DeviceChange`, here `acc`; a panic ends the loop. -/
def deviceChanges (op : VirtualDeviceConfigSpecOperation)
    (fop : VirtualDeviceConfigSpecFileOperation) :
    List BaseVirtualDevice → List VirtualDeviceConfigSpec →
      Except String (List VirtualDeviceConfigSpec)
  | [], acc => Except.ok acc
  | device :: devices, acc =>
    match deviceChange op fop device with
    | Except.error m => Except.error m
    | Except.ok config => deviceChanges op fop devices (acc ++ [config])

/-- What the server answers to `configureDevice`: the error of `Reconfigure` and the
error of the task wait (`none` is nil). -/
structure Reconfigurer where
  reconfigure : Option GoError
  taskWait : Option GoError

/-- A call made by `configureDevice`. -/
inductive DeviceCall where
  | reconfigure (spec : VirtualMachineConfigSpec)
  | taskWait
deriving DecidableEq, Repr

/-- The calls of `configureDevice` and the way it ends. -/
structure DeviceRun where
  calls : List DeviceCall
  outcome : Outcome
deriving DecidableEq, Repr

/-- The method `VirtualMachine.configureDevice`, virtual_machine.go:195-229. -/
def VirtualMachine.configureDevice (srv : Reconfigurer) (op : VirtualDeviceConfigSpecOperation)
    (fop : VirtualDeviceConfigSpecFileOperation) (devices : List BaseVirtualDevice) :
    DeviceRun :=
  match deviceChanges op fop devices [] with
  | Except.error m => ⟨[], Outcome.panicked m⟩
  | Except.ok changes =>
    match srv.reconfigure with
    | some err => ⟨[DeviceCall.reconfigure ⟨changes⟩], Outcome.returned (some err)⟩
    | none =>
      ⟨[DeviceCall.reconfigure ⟨changes⟩, DeviceCall.taskWait], Outcome.returned srv.taskWait⟩

/-- The method `VirtualMachine.AddDevice`, virtual_machine.go:232-234. -/
def VirtualMachine.AddDevice (srv : Reconfigurer) (device : List BaseVirtualDevice) : DeviceRun :=
  VirtualMachine.configureDevice srv VirtualDeviceConfigSpecOperation.add
    VirtualDeviceConfigSpecFileOperation.create device

/-- The method `VirtualMachine.EditDevice`, virtual_machine.go:237-239. -/
def VirtualMachine.EditDevice (srv : Reconfigurer) (device : List BaseVirtualDevice) : DeviceRun :=
  VirtualMachine.configureDevice srv VirtualDeviceConfigSpecOperation.edit
    VirtualDeviceConfigSpecFileOperation.replace device

/-- The method `VirtualMachine.RemoveDevice`, virtual_machine.go:242-244. -/
def VirtualMachine.RemoveDevice (srv : Reconfigurer) (device : List BaseVirtualDevice) :
    DeviceRun :=
  VirtualMachine.configureDevice srv VirtualDeviceConfigSpecOperation.remove
    VirtualDeviceConfigSpecFileOperation.destroy device

/-- The existing-disk special case in the words of the claim: the operation is
add and the device is a disk of capacity 0 that is not a child disk, that is,
whose backing is not a flat-ver2 backing with a non-nil parent. -/
def existingDiskCase (op : VirtualDeviceConfigSpecOperation) (dp : Option VirtualDisk) : Prop :=
  op = VirtualDeviceConfigSpecOperation.add ∧
    ∃ d, dp = some d ∧ d.CapacityInKB = 0 ∧
      ¬ ∃ b, d.Backing = some (BaseVirtualDeviceBackingInfo.flatVer2 (some b)) ∧ b.Parent ≠ []

/-- The entry of `DeviceChange` that the claim describes for a device: it carries the
device and the operation; a disk has the file operation `fop`, or none in the
existing-disk special case; a device that is not a disk has none. -/
def claimedEntry (op : VirtualDeviceConfigSpecOperation)
    (fop : VirtualDeviceConfigSpecFileOperation) (device : BaseVirtualDevice)
    (cs : VirtualDeviceConfigSpec) : Prop :=
  cs.Device = device ∧ cs.Operation = op ∧
    match device with
    | BaseVirtualDevice.disk dp =>
      (existingDiskCase op dp → cs.FileOperation = VirtualDeviceConfigSpecFileOperation.empty) ∧
      (¬ existingDiskCase op dp → cs.FileOperation = fop)
    | BaseVirtualDevice.other _ _ =>
      cs.FileOperation = VirtualDeviceConfigSpecFileOperation.empty

/-- Whether adding a device dereferences a nil pointer: the device is a nil disk
pointer, or a disk of capacity 0 whose backing is a nil flat-ver2 pointer. -/
def nilDeref (device : BaseVirtualDevice) : Prop :=
  device = BaseVirtualDevice.disk none ∨
    ∃ d, device = BaseVirtualDevice.disk (some d) ∧ d.CapacityInKB = 0 ∧
      d.Backing = some (BaseVirtualDeviceBackingInfo.flatVer2 none)

end Object

/-! ## Sample data -/

/-- A virtual machine reference. -/
def vmA : ManagedObjectReference := ⟨"VirtualMachine", "vm-1"⟩

/-- Another virtual machine reference. -/
def vmB : ManagedObjectReference := ⟨"VirtualMachine", "vm-2"⟩

/-- An assign of `guest.ipAddress` with the given value. -/
def assignIP (v : Option AnyType) : PropertyChange := ⟨"guest.ipAddress", PropertyChangeOp.assign, v⟩

/-- A reply with one filter and one object update for `vmA`. -/
def reply (version : String) (cs : List PropertyChange) : UpdateSet := ⟨version, [⟨[⟨vmA, cs⟩]⟩]⟩

/-- A transport error. -/
def errTransport : GoError := ⟨"transport error"⟩

/-- An object-not-found error. -/
def errNotFound : GoError := ⟨"object not found"⟩

/-- A destroy error. -/
def errDestroy : GoError := ⟨"destroy failed"⟩

/-- A snapshot with an address. -/
def snapWithIP : Mo.VirtualMachine := ⟨"vm-1", some ⟨"10.0.0.5"⟩⟩

/-- A snapshot whose guest has no address yet. -/
def snapNoIP : Mo.VirtualMachine := ⟨"vm-1", some ⟨""⟩⟩

/-- A collector on which `WaitForIP` succeeds at the first poll. -/
def collectorOK : Collector :=
  ⟨none, none, [Except.ok (reply "1" [assignIP (some (AnyType.str "10.0.0.5"))])], none⟩

/-- The command with `-waitip`, resolving `vmA` by search: the first read has no
address, the wait succeeds, the second read has the address. -/
def infoWait : Govc.info :=
  ⟨true, false, none, true, Except.ok vmA, "", Except.ok [],
    [Except.ok snapNoIP, Except.ok snapWithIP], [collectorOK], none⟩

/-- The command without `-waitip` and without argument. -/
def infoNoArg : Govc.info :=
  ⟨false, false, none, false, Except.ok vmA, "", Except.ok [], [Except.ok snapNoIP], [], none⟩

/-- The command without `-waitip`, resolving `vmA` from the listed references. -/
def infoPlain : Govc.info :=
  ⟨false, false, none, false, Except.ok vmA, "vm-1", Except.ok [⟨"Folder", "group-1"⟩, vmA],
    [Except.ok snapNoIP, Except.ok snapWithIP], [collectorOK], none⟩

end Govmomi

/-! ## Lemmas on traces -/

namespace Govmomi

open Govc Object

theorem countCreateFilter_polls (vs : List String) :
    countCreateFilter (vs.map Call.waitForUpdates) = 0 := by
  induction vs with
  | nil => rfl
  | cons v vs _ => simp [countCreateFilter]

theorem countDestroy_polls (vs : List String) :
    countDestroy (vs.map Call.waitForUpdates) = 0 := by
  induction vs with
  | nil => rfl
  | cons v vs _ => simp [countDestroy]

theorem countWaitForUpdates_polls (vs : List String) :
    countWaitForUpdates (vs.map Call.waitForUpdates) = vs.length := by
  induction vs with
  | nil => rfl
  | cons v vs ih => simp [countWaitForUpdates]

theorem countCreateFilter_append (s t : List Call) :
    countCreateFilter (s ++ t) = countCreateFilter s + countCreateFilter t := by
  simp [countCreateFilter, List.countP_append]

theorem countDestroy_append (s t : List Call) :
    countDestroy (s ++ t) = countDestroy s + countDestroy t := by
  simp [countDestroy, List.countP_append]

theorem countWaitForUpdates_append (s t : List Call) :
    countWaitForUpdates (s ++ t) = countWaitForUpdates s + countWaitForUpdates t := by
  simp [countWaitForUpdates, List.countP_append]

/-- The counts of a trace made of the collector creation, the filter creation,
polls and a final destroy. -/
theorem counts_full (req : CreateFilter) (vs : List String) (d : Option GoError) :
    countCreateFilter (Call.newPropertyCollector :: Call.createFilter req ::
      (vs.map Call.waitForUpdates ++ [Call.destroy d])) = 1 ∧
    countDestroy (Call.newPropertyCollector :: Call.createFilter req ::
      (vs.map Call.waitForUpdates ++ [Call.destroy d])) = 1 ∧
    countWaitForUpdates (Call.newPropertyCollector :: Call.createFilter req ::
      (vs.map Call.waitForUpdates ++ [Call.destroy d])) = vs.length ∧
    countDestroy (Call.newPropertyCollector :: Call.createFilter req ::
      vs.map Call.waitForUpdates) = 0 := by
  have e1 : Call.newPropertyCollector :: Call.createFilter req ::
      (vs.map Call.waitForUpdates ++ [Call.destroy d]) =
      [Call.newPropertyCollector, Call.createFilter req] ++
        (vs.map Call.waitForUpdates ++ [Call.destroy d]) := rfl
  have e2 : Call.newPropertyCollector :: Call.createFilter req :: vs.map Call.waitForUpdates =
      [Call.newPropertyCollector, Call.createFilter req] ++ vs.map Call.waitForUpdates := rfl
  rw [e1, e2]
  refine ⟨?_, ?_, ?_, ?_⟩
  · rw [countCreateFilter_append, countCreateFilter_append, countCreateFilter_polls]; rfl
  · rw [countDestroy_append, countDestroy_append, countDestroy_polls]; rfl
  · rw [countWaitForUpdates_append, countWaitForUpdates_append, countWaitForUpdates_polls]
    simp [countWaitForUpdates]
  · rw [countDestroy_append, countDestroy_polls]; rfl

theorem cursors_polls (vs : List String) : cursors (vs.map Call.waitForUpdates) = vs := by
  induction vs with
  | nil => rfl
  | cons v vs ih => simp [cursors, ih]

theorem cursors_append (s t : List Call) : cursors (s ++ t) = cursors s ++ cursors t := by
  induction s with
  | nil => rfl
  | cons a s ih => cases a <;> simp [cursors, ih]

/-- The trace of the polling loop consists of `WaitForUpdates` calls only, the
first one with the cursor the loop was entered with. -/
theorem pollLoop_trace (vm : ManagedObjectReference) (us : List (Except GoError UpdateSet))
    (v : String) :
    ∃ vs, (pollLoop vm us v).trace = (v :: vs).map Call.waitForUpdates := by
  induction us generalizing v with
  | nil => exact ⟨[], rfl⟩
  | cons u us ih =>
    cases u with
    | error e => exact ⟨[], rfl⟩
    | ok res =>
      unfold pollLoop
      cases hsel : selectProp vm res with
      | none => exact ⟨[], rfl⟩
      | some prop =>
        by_cases hv : prop.Val ≠ none
        · exact ⟨[], by simp [hv]⟩
        · obtain ⟨vs, hvs⟩ := ih res.Version
          exact ⟨res.Version :: vs, by simp [hv, hvs]⟩

/-- The shape of a run of `WaitForIP` whose collector was obtained and whose
body is not blocked: the deferred `Destroy` closes the trace. -/
theorem WaitForIP_unblocked (vm : ManagedObjectReference) (c : Collector)
    (hp : c.newPropertyCollector = none) (hb : (waitBody vm c).outcome ≠ Outcome.blocked) :
    WaitForIP vm c =
      ⟨Call.newPropertyCollector :: ((waitBody vm c).trace ++ [Call.destroy c.destroy]),
        (waitBody vm c).outcome⟩ := by
  unfold WaitForIP
  rw [hp]
  cases h : (waitBody vm c).outcome with
  | blocked => exact absurd h hb
  | returned e => simp [h]
  | panicked m => simp [h]

/-- A run of `WaitForIP` whose body is blocked issues no `Destroy`. -/
theorem WaitForIP_blocked (vm : ManagedObjectReference) (c : Collector)
    (hp : c.newPropertyCollector = none) (hb : (waitBody vm c).outcome = Outcome.blocked) :
    WaitForIP vm c = ⟨Call.newPropertyCollector :: (waitBody vm c).trace, Outcome.blocked⟩ := by
  unfold WaitForIP
  rw [hp]
  simp [hb]

/-- The body after a successful `CreateFilter`. -/
theorem waitBody_created (vm : ManagedObjectReference) (c : Collector)
    (hf : c.createFilter = none) :
    waitBody vm c =
      ⟨Call.createFilter (filterRequest vm) :: (pollLoop vm c.updates "").trace,
        (pollLoop vm c.updates "").outcome⟩ := by
  unfold waitBody
  rw [hf]

/-- The outcome of `WaitForIP` is the outcome of its body. -/
theorem WaitForIP_outcome (vm : ManagedObjectReference) (c : Collector)
    (hp : c.newPropertyCollector = none) :
    (WaitForIP vm c).outcome = (waitBody vm c).outcome := by
  by_cases hb : (waitBody vm c).outcome = Outcome.blocked
  · rw [WaitForIP_blocked vm c hp hb, hb]
  · rw [WaitForIP_unblocked vm c hp hb]

/-- What `keepsWaiting` says about the selection. -/
theorem keepsWaiting_iff (vm : ManagedObjectReference) (res : UpdateSet) :
    keepsWaiting vm res = true ↔ ∃ prop, selectProp vm res = some prop ∧ prop.Val = none := by
  unfold keepsWaiting
  cases h : selectProp vm res with
  | none => simp
  | some prop => simp [Option.isNone_iff_eq_none]

/-- One iteration on a reply that keeps the loop waiting: the next iteration
starts from the version of that reply. -/
theorem pollLoop_step (vm : ManagedObjectReference) (res : UpdateSet)
    (rest : List (Except GoError UpdateSet)) (v : String) (hw : keepsWaiting vm res = true) :
    pollLoop vm (Except.ok res :: rest) v =
      ⟨Call.waitForUpdates v :: (pollLoop vm rest res.Version).trace,
        (pollLoop vm rest res.Version).outcome⟩ := by
  obtain ⟨prop, hsel, hval⟩ := (keepsWaiting_iff vm res).1 hw
  simp only [pollLoop, hsel, hval]
  simp

/-- Iterations on replies that all keep the loop waiting: each call carries the
version of the reply before it, and the loop goes on with the remaining
replies from the version of the last one. -/
theorem pollLoop_keep (vm : ManagedObjectReference) (pre : List UpdateSet)
    (rest : List (Except GoError UpdateSet)) (v : String)
    (hw : ∀ r ∈ pre, keepsWaiting vm r = true) :
    pollLoop vm (pre.map Except.ok ++ rest) v =
      ⟨(cursorsOf v pre).map Call.waitForUpdates ++ (pollLoop vm rest (lastVersion v pre)).trace,
        (pollLoop vm rest (lastVersion v pre)).outcome⟩ := by
  induction pre generalizing v with
  | nil => simp [cursorsOf, lastVersion]
  | cons r pre ih =>
    have hr : keepsWaiting vm r = true := hw r (List.mem_cons_self _ _)
    have hpre : ∀ x ∈ pre, keepsWaiting vm x = true :=
      fun x hx => hw x (List.mem_cons_of_mem _ hx)
    rw [List.map_cons, List.cons_append, pollLoop_step vm r _ v hr, ih r.Version hpre]
    simp [cursorsOf, lastVersion]

theorem cursorsOf_length (v : String) (pre : List UpdateSet) :
    (cursorsOf v pre).length = pre.length := by
  induction pre generalizing v with
  | nil => rfl
  | cons r pre ih => simp [cursorsOf, ih]

theorem lastVersion_append (v : String) (init : List UpdateSet) (last : UpdateSet) :
    lastVersion v (init ++ [last]) = last.Version := by
  induction init generalizing v with
  | nil => rfl
  | cons r init ih => simpa [lastVersion] using ih r.Version

/-! ## Lemmas on the selection of the change -/

/-- The inner loop either leaves `prop` as it was, no record being a
`guest.ipAddress` assign, or sets it to the first such record. -/
theorem scanChangeSet_cases (cs : List PropertyChange) (prop : Option PropertyChange) :
    (scanChangeSet cs prop = prop ∧
        ∀ ch ∈ cs, ¬ (ch.Name = "guest.ipAddress" ∧ ch.Op = PropertyChangeOpAssign)) ∨
      ∃ ch ∈ cs, ch.Name = "guest.ipAddress" ∧ ch.Op = PropertyChangeOpAssign ∧
        scanChangeSet cs prop = some ch := by
  induction cs with
  | nil => left; simp [scanChangeSet]
  | cons c cs ih =>
    by_cases hn : c.Name = "guest.ipAddress"
    · by_cases ho : c.Op = PropertyChangeOpAssign
      · right
        exact ⟨c, List.mem_cons_self _ _, hn, ho, by simp [scanChangeSet, hn, ho]⟩
      · have hs : scanChangeSet (c :: cs) prop = scanChangeSet cs prop := by
          simp [scanChangeSet, hn, ho]
        rw [hs]
        rcases ih with ⟨h1, h2⟩ | ⟨ch, hm, h1, h2, h3⟩
        · left
          refine ⟨h1, ?_⟩
          intro ch hch
          rcases List.mem_cons.1 hch with rfl | hch
          · exact fun h => ho h.2
          · exact h2 ch hch
        · right
          exact ⟨ch, List.mem_cons_of_mem _ hm, h1, h2, h3⟩
    · have hs : scanChangeSet (c :: cs) prop = scanChangeSet cs prop := by
        simp [scanChangeSet, hn]
      rw [hs]
      rcases ih with ⟨h1, h2⟩ | ⟨ch, hm, h1, h2, h3⟩
      · left
        refine ⟨h1, ?_⟩
        intro ch hch
        rcases List.mem_cons.1 hch with rfl | hch
        · exact fun h => hn h.1
        · exact h2 ch hch
      · right
        exact ⟨ch, List.mem_cons_of_mem _ hm, h1, h2, h3⟩

/-- Whatever the loop over an object set selects was selected before or is a
`guest.ipAddress` assign of an object update of the VM. -/
theorem scanObjectSet_some (vm : ManagedObjectReference) (oss : List ObjectUpdate)
    (prop : Option PropertyChange) (p : PropertyChange)
    (h : scanObjectSet vm oss prop = some p) :
    prop = some p ∨ ∃ os ∈ oss, os.Obj = vm ∧ p ∈ os.ChangeSet ∧
      p.Name = "guest.ipAddress" ∧ p.Op = PropertyChangeOpAssign := by
  induction oss generalizing prop with
  | nil => left; simpa [scanObjectSet] using h
  | cons os oss ih =>
    by_cases ho : os.Obj = vm
    · rw [scanObjectSet, if_pos ho] at h
      rcases ih _ h with h1 | ⟨o, hm, h1⟩
      · rcases scanChangeSet_cases os.ChangeSet prop with ⟨h2, _⟩ | ⟨ch, hm, hn, hop, h2⟩
        · left; rw [← h2]; exact h1
        · right
          rw [h2] at h1
          have : ch = p := Option.some.inj h1
          subst this
          exact ⟨os, List.mem_cons_self _ _, ho, hm, hn, hop⟩
      · right
        exact ⟨o, List.mem_cons_of_mem _ hm, h1⟩
    · rw [scanObjectSet, if_neg ho] at h
      rcases ih _ h with h1 | ⟨o, hm, h1⟩
      · left; exact h1
      · right
        exact ⟨o, List.mem_cons_of_mem _ hm, h1⟩

/-- Whatever the loop over the filter sets selects was selected before or is a
`guest.ipAddress` assign of an object update of the VM. -/
theorem scanFilterSet_some (vm : ManagedObjectReference) (fss : List PropertyFilterUpdate)
    (prop : Option PropertyChange) (p : PropertyChange)
    (h : scanFilterSet vm fss prop = some p) :
    prop = some p ∨ ∃ fs ∈ fss, ∃ os ∈ fs.ObjectSet, os.Obj = vm ∧ p ∈ os.ChangeSet ∧
      p.Name = "guest.ipAddress" ∧ p.Op = PropertyChangeOpAssign := by
  induction fss generalizing prop with
  | nil => left; simpa [scanFilterSet] using h
  | cons fs fss ih =>
    rw [scanFilterSet] at h
    rcases ih _ h with h1 | ⟨f, hm, h1⟩
    · rcases scanObjectSet_some vm fs.ObjectSet prop p h1 with h2 | h2
      · left; exact h2
      · right
        exact ⟨fs, List.mem_cons_self _ _, h2⟩
    · right
      exact ⟨f, List.mem_cons_of_mem _ hm, h1⟩

/-- The selected change is a `guest.ipAddress` assign delivered for the VM. -/
theorem selectProp_some (vm : ManagedObjectReference) (res : UpdateSet) (p : PropertyChange)
    (h : selectProp vm res = some p) :
    ∃ fs ∈ res.FilterSet, ∃ os ∈ fs.ObjectSet, os.Obj = vm ∧ p ∈ os.ChangeSet ∧
      p.Name = "guest.ipAddress" ∧ p.Op = PropertyChangeOpAssign := by
  rcases scanFilterSet_some vm res.FilterSet none p h with h1 | h1
  · exact absurd h1 (by simp)
  · exact h1

theorem scanChangeSet_isSome (cs : List PropertyChange) (prop : Option PropertyChange)
    (h : prop.isSome = true ∨
      ∃ ch ∈ cs, ch.Name = "guest.ipAddress" ∧ ch.Op = PropertyChangeOpAssign) :
    (scanChangeSet cs prop).isSome = true := by
  rcases scanChangeSet_cases cs prop with ⟨h1, h2⟩ | ⟨ch, _, _, _, h3⟩
  · rw [h1]
    rcases h with h | ⟨ch, hm, hn, ho⟩
    · exact h
    · exact absurd ⟨hn, ho⟩ (h2 ch hm)
  · rw [h3]; rfl

theorem scanObjectSet_isSome (vm : ManagedObjectReference) (oss : List ObjectUpdate)
    (prop : Option PropertyChange)
    (h : prop.isSome = true ∨ ∃ os ∈ oss, os.Obj = vm ∧
      ∃ ch ∈ os.ChangeSet, ch.Name = "guest.ipAddress" ∧ ch.Op = PropertyChangeOpAssign) :
    (scanObjectSet vm oss prop).isSome = true := by
  induction oss generalizing prop with
  | nil =>
    rcases h with h | ⟨os, hm, _⟩
    · simpa [scanObjectSet] using h
    · exact absurd hm (List.not_mem_nil _)
  | cons o oss ih =>
    by_cases ho : o.Obj = vm
    · rw [scanObjectSet, if_pos ho]
      apply ih
      rcases h with h | ⟨os, hm, hv, hc⟩
      · left; exact scanChangeSet_isSome _ _ (Or.inl h)
      · rcases List.mem_cons.1 hm with rfl | hm
        · left; exact scanChangeSet_isSome _ _ (Or.inr hc)
        · right; exact ⟨os, hm, hv, hc⟩
    · rw [scanObjectSet, if_neg ho]
      apply ih
      rcases h with h | ⟨os, hm, hv, hc⟩
      · left; exact h
      · rcases List.mem_cons.1 hm with rfl | hm
        · exact absurd hv ho
        · right; exact ⟨os, hm, hv, hc⟩

theorem scanFilterSet_isSome (vm : ManagedObjectReference) (fss : List PropertyFilterUpdate)
    (prop : Option PropertyChange)
    (h : prop.isSome = true ∨ ∃ fs ∈ fss, ∃ os ∈ fs.ObjectSet, os.Obj = vm ∧
      ∃ ch ∈ os.ChangeSet, ch.Name = "guest.ipAddress" ∧ ch.Op = PropertyChangeOpAssign) :
    (scanFilterSet vm fss prop).isSome = true := by
  induction fss generalizing prop with
  | nil =>
    rcases h with h | ⟨fs, hm, _⟩
    · simpa [scanFilterSet] using h
    · exact absurd hm (List.not_mem_nil _)
  | cons f fss ih =>
    rw [scanFilterSet]
    apply ih
    rcases h with h | ⟨fs, hm, hc⟩
    · left; exact scanObjectSet_isSome vm _ _ (Or.inl h)
    · rcases List.mem_cons.1 hm with rfl | hm
      · left; exact scanObjectSet_isSome vm _ _ (Or.inr hc)
      · right; exact ⟨fs, hm, hc⟩

/-- No change is selected exactly when the reply carries no `guest.ipAddress`
assign for the VM. -/
theorem selectProp_eq_none_iff (vm : ManagedObjectReference) (res : UpdateSet) :
    selectProp vm res = none ↔ ¬ hasAssign vm res := by
  constructor
  · intro h hex
    have := scanFilterSet_isSome vm res.FilterSet none (Or.inr hex)
    unfold selectProp at h
    rw [h] at this
    exact absurd this (by simp)
  · intro h
    cases hs : selectProp vm res with
    | none => rfl
    | some p =>
      obtain ⟨fs, hf, os, ho, hv, hm, hn, hop⟩ := selectProp_some vm res p hs
      exact absurd ⟨fs, hf, os, ho, hv, p, hm, hn, hop⟩ h

/-! ## Claims on govc's `WaitForIP` -/

/-- C1: every run of govc's `WaitForIP` that returns nil issued exactly one `CreateFilter`
call and exactly one `Destroy` call, polled n >= 1 times, and its trace is the
collector creation, the filter creation, the n `WaitForUpdates` calls and then
the `Destroy`, which therefore follows the last `WaitForUpdates` call. -/
theorem WaitForIP_success_trace (vm : ManagedObjectReference) (c : Collector)
    (h : (WaitForIP vm c).outcome = Outcome.returned none) :
    countCreateFilter (WaitForIP vm c).trace = 1 ∧
    countDestroy (WaitForIP vm c).trace = 1 ∧
    1 ≤ countWaitForUpdates (WaitForIP vm c).trace ∧
    ∃ vs : List String, vs.length = countWaitForUpdates (WaitForIP vm c).trace ∧
      (WaitForIP vm c).trace =
        Call.newPropertyCollector :: Call.createFilter (filterRequest vm) ::
          (vs.map Call.waitForUpdates ++ [Call.destroy c.destroy]) := by
  have hp : c.newPropertyCollector = none := by
    cases hp : c.newPropertyCollector with
    | none => rfl
    | some err => simp [WaitForIP, hp] at h
  have hb : (waitBody vm c).outcome = Outcome.returned none := by
    rw [← WaitForIP_outcome vm c hp]; exact h
  have hf : c.createFilter = none := by
    cases hf : c.createFilter with
    | none => rfl
    | some err => simp [waitBody, hf] at hb
  obtain ⟨vs, hvs⟩ := pollLoop_trace vm c.updates ""
  have hrun := WaitForIP_unblocked vm c hp (by rw [hb]; simp)
  rw [waitBody_created vm c hf] at hrun
  simp only [hvs] at hrun
  rw [hrun]
  obtain ⟨h1, h2, h3, _⟩ := counts_full (filterRequest vm) ("" :: vs) c.destroy
  refine ⟨h1, h2, ?_, "" :: vs, h3.symm, rfl⟩
  rw [show (Call.createFilter (filterRequest vm) :: List.map Call.waitForUpdates ("" :: vs) ++
      [Call.destroy c.destroy]) = Call.createFilter (filterRequest vm) ::
      (List.map Call.waitForUpdates ("" :: vs) ++ [Call.destroy c.destroy]) from rfl, h3]
  simp

/-- C1, at a run of two poll iterations. -/
theorem WaitForIP_success_trace_witness :
    (WaitForIP vmA ⟨none, none, [Except.ok (reply "1" [assignIP none]),
        Except.ok (reply "2" [assignIP (some (AnyType.str "10.0.0.5"))])], none⟩).outcome
      = Outcome.returned none ∧
    countDestroy (WaitForIP vmA ⟨none, none, [Except.ok (reply "1" [assignIP none]),
        Except.ok (reply "2" [assignIP (some (AnyType.str "10.0.0.5"))])], none⟩).trace = 1 :=
  ⟨by decide, (WaitForIP_success_trace vmA _ (by decide)).2.1⟩

/-- C2: if the first k-1 `WaitForUpdates` calls of govc's `WaitForIP` succeed and keep the
loop waiting and the k-th returns the error e, then `WaitForIP` returns exactly e,
exactly k `WaitForUpdates` calls were issued, and `Destroy` is called exactly once,
as the last call of the trace. -/
theorem WaitForIP_poll_error (vm : ManagedObjectReference) (c : Collector) (k : Nat)
    (e : GoError) (pre : List UpdateSet) (rest : List (Except GoError UpdateSet))
    (hp : c.newPropertyCollector = none) (hf : c.createFilter = none)
    (hk : 1 ≤ k) (hlen : pre.length = k - 1)
    (hu : c.updates = pre.map Except.ok ++ Except.error e :: rest)
    (hw : ∀ r ∈ pre, keepsWaiting vm r = true) :
    (WaitForIP vm c).outcome = Outcome.returned (some e) ∧
    countWaitForUpdates (WaitForIP vm c).trace = k ∧
    countDestroy (WaitForIP vm c).trace = 1 ∧
    ∃ t, (WaitForIP vm c).trace = t ++ [Call.destroy c.destroy] ∧ countDestroy t = 0 := by
  have hloop := pollLoop_keep vm pre (Except.error e :: rest) "" hw
  rw [← hu] at hloop
  have hbody := waitBody_created vm c hf
  rw [hloop] at hbody
  simp only [pollLoop] at hbody
  have hrun := WaitForIP_unblocked vm c hp (by rw [hbody]; simp)
  rw [hbody] at hrun
  have hcur := cursorsOf_length "" pre
  rw [hrun]
  obtain ⟨_, h2, h3, h4⟩ :=
    counts_full (filterRequest vm) (cursorsOf "" pre ++ [lastVersion "" pre]) c.destroy
  have hshape : (Call.createFilter (filterRequest vm) ::
      (List.map Call.waitForUpdates (cursorsOf "" pre) ++
        [Call.waitForUpdates (lastVersion "" pre)]) ++ [Call.destroy c.destroy]) =
      Call.createFilter (filterRequest vm) ::
        (List.map Call.waitForUpdates (cursorsOf "" pre ++ [lastVersion "" pre]) ++
          [Call.destroy c.destroy]) := by simp
  simp only [hshape]
  refine ⟨trivial, ?_, h2, ?_⟩
  · rw [h3, List.length_append, hcur, hlen]
    simp
    omega
  · exact ⟨_, rfl, h4⟩

/-- C2, at k = 3: two replies that keep waiting, then a transport error. -/
theorem WaitForIP_poll_error_witness :
    (WaitForIP vmA ⟨none, none, [Except.ok (reply "1" [assignIP none]),
        Except.ok (reply "2" [assignIP none]), Except.error errTransport], some errDestroy⟩).outcome
      = Outcome.returned (some errTransport) ∧
    countWaitForUpdates (WaitForIP vmA ⟨none, none, [Except.ok (reply "1" [assignIP none]),
        Except.ok (reply "2" [assignIP none]), Except.error errTransport], some errDestroy⟩).trace
      = 3 :=
  let h := WaitForIP_poll_error vmA ⟨none, none, [Except.ok (reply "1" [assignIP none]),
        Except.ok (reply "2" [assignIP none]), Except.error errTransport], some errDestroy⟩ 3
      errTransport [reply "1" [assignIP none], reply "2" [assignIP none]] [] rfl rfl
      (by decide) (by decide) rfl (by decide)
  ⟨h.1, h.2.1⟩

/-- C3 fails as stated: when `CreateFilter` returns an error the deferred `Destroy` of
the property collector is still called, once. -/
theorem WaitForIP_createFilter_error_destroys :
    WaitForIP vmA ⟨none, some errNotFound, [], none⟩ =
      ⟨[Call.newPropertyCollector, Call.createFilter (filterRequest vmA), Call.destroy none],
        Outcome.returned (some errNotFound)⟩ ∧
    countDestroy (WaitForIP vmA ⟨none, some errNotFound, [], none⟩).trace = 1 := by
  decide

/-- C3, amended: when `CreateFilter` returns an error, `WaitForIP` returns that error, issues
no `WaitForUpdates` call, and calls `Destroy` exactly once, the deferred destroy of
the property collector obtained before.  When `NewPropertyCollector` itself returns
an error, `WaitForIP` returns that error and issues no `CreateFilter`, no
`WaitForUpdates` and no `Destroy` call. -/
theorem WaitForIP_createFilter_error (vm : ManagedObjectReference) (c : Collector)
    (e : GoError) :
    (c.newPropertyCollector = none → c.createFilter = some e →
      WaitForIP vm c =
        ⟨[Call.newPropertyCollector, Call.createFilter (filterRequest vm),
            Call.destroy c.destroy], Outcome.returned (some e)⟩ ∧
      countWaitForUpdates (WaitForIP vm c).trace = 0 ∧
      countDestroy (WaitForIP vm c).trace = 1) ∧
    (c.newPropertyCollector = some e →
      WaitForIP vm c = ⟨[Call.newPropertyCollector], Outcome.returned (some e)⟩ ∧
      countCreateFilter (WaitForIP vm c).trace = 0 ∧
      countWaitForUpdates (WaitForIP vm c).trace = 0 ∧
      countDestroy (WaitForIP vm c).trace = 0) := by
  constructor
  · intro hp hf
    have hrun : WaitForIP vm c =
        ⟨[Call.newPropertyCollector, Call.createFilter (filterRequest vm),
            Call.destroy c.destroy], Outcome.returned (some e)⟩ := by
      simp [WaitForIP, waitBody, hp, hf]
    rw [hrun]
    exact ⟨rfl, rfl, rfl⟩
  · intro hp
    have hrun : WaitForIP vm c =
        ⟨[Call.newPropertyCollector], Outcome.returned (some e)⟩ := by
      simp [WaitForIP, hp]
    rw [hrun]
    exact ⟨rfl, rfl, rfl, rfl⟩

/-- C3 amended, at a collector whose filter creation fails and at one that cannot be
created. -/
theorem WaitForIP_createFilter_error_witness :
    (countWaitForUpdates (WaitForIP vmA ⟨none, some errNotFound,
        [Except.ok (reply "1" [assignIP none])], some errDestroy⟩).trace = 0 ∧
      countDestroy (WaitForIP vmA ⟨none, some errNotFound,
        [Except.ok (reply "1" [assignIP none])], some errDestroy⟩).trace = 1) ∧
    countDestroy (WaitForIP vmA ⟨some errTransport, none,
        [Except.ok (reply "1" [assignIP none])], some errDestroy⟩).trace = 0 :=
  ⟨((WaitForIP_createFilter_error vmA ⟨none, some errNotFound,
      [Except.ok (reply "1" [assignIP none])], some errDestroy⟩ errNotFound).1 rfl rfl).2,
    ((WaitForIP_createFilter_error vmA ⟨some errTransport, none,
      [Except.ok (reply "1" [assignIP none])], some errDestroy⟩ errTransport).2 rfl).2.2.2⟩

/-- C4: the way govc's `WaitForIP` ends (the error it returns, nil included) is the same
whatever the deferred `Destroy` replies, for every script of the other replies. -/
theorem WaitForIP_outcome_ignores_destroy (vm : ManagedObjectReference)
    (np cf : Option GoError) (us : List (Except GoError UpdateSet)) (d1 d2 : Option GoError) :
    (WaitForIP vm ⟨np, cf, us, d1⟩).outcome = (WaitForIP vm ⟨np, cf, us, d2⟩).outcome := by
  cases np with
  | some err => rfl
  | none =>
    rw [WaitForIP_outcome vm ⟨none, cf, us, d1⟩ rfl, WaitForIP_outcome vm ⟨none, cf, us, d2⟩ rfl]
    rfl

/-- The cursors of a run are those of its polling loop. -/
theorem cursors_WaitForIP (vm : ManagedObjectReference) (c : Collector)
    (hp : c.newPropertyCollector = none) (hf : c.createFilter = none) :
    cursors (WaitForIP vm c).trace = cursors (pollLoop vm c.updates "").trace := by
  by_cases hb : (waitBody vm c).outcome = Outcome.blocked
  · rw [WaitForIP_blocked vm c hp hb, waitBody_created vm c hf]
    simp [cursors]
  · rw [WaitForIP_unblocked vm c hp hb, waitBody_created vm c hf]
    simp [cursors, cursors_append]

/-- C5: the first `WaitForUpdates` call of govc's `WaitForIP` carries the empty cursor, and
for every n >= 1, if the first n polls succeed and keep the loop waiting, an
(n+1)-th call is issued whose cursor is the `Version` of the n-th reply. -/
theorem WaitForIP_cursor_chain (vm : ManagedObjectReference) (c : Collector)
    (hp : c.newPropertyCollector = none) (hf : c.createFilter = none) :
    (cursors (WaitForIP vm c).trace)[0]? = some "" ∧
    ∀ (n : Nat) (pre : List UpdateSet) (rest : List (Except GoError UpdateSet)),
      1 ≤ n → pre.length = n → c.updates = pre.map Except.ok ++ rest →
      (∀ r ∈ pre, keepsWaiting vm r = true) →
      ∃ last, pre.getLast? = some last ∧
        (cursors (WaitForIP vm c).trace)[n]? = some last.Version := by
  rw [cursors_WaitForIP vm c hp hf]
  constructor
  · obtain ⟨vs, hvs⟩ := pollLoop_trace vm c.updates ""
    rw [hvs, cursors_polls]
    simp
  · intro n pre rest hn hlen hu hw
    rcases List.eq_nil_or_concat pre with rfl | ⟨init, last, rfl⟩
    · simp at hlen; omega
    · rw [List.concat_eq_append] at hu hw hlen ⊢
      refine ⟨last, List.getLast?_concat _, ?_⟩
      rw [hu, pollLoop_keep vm _ rest "" hw]
      obtain ⟨vs, hvs⟩ := pollLoop_trace vm rest (lastVersion "" (init ++ [last]))
      simp only [hvs, cursors_append, cursors_polls]
      rw [List.getElem?_append_right (by rw [cursorsOf_length, hlen]), cursorsOf_length, hlen,
        lastVersion_append]
      simp

/-- C5, at a run of two polls that keep waiting: the third call carries "2". -/
theorem WaitForIP_cursor_chain_witness :
    ∃ last, [reply "1" [assignIP none], reply "2" [assignIP none]].getLast? = some last ∧
      (cursors (WaitForIP vmA ⟨none, none, [Except.ok (reply "1" [assignIP none]),
        Except.ok (reply "2" [assignIP none])], none⟩).trace)[2]? = some last.Version :=
  (WaitForIP_cursor_chain vmA ⟨none, none, [Except.ok (reply "1" [assignIP none]),
        Except.ok (reply "2" [assignIP none])], none⟩ rfl rfl).2 2
    [reply "1" [assignIP none], reply "2" [assignIP none]] [] (by decide) rfl rfl (by decide)

/-- C6 fails as stated: on a successful reply with an empty `FilterSet` the loop panics
and issues no further `WaitForUpdates` call, although another reply was ready. -/
theorem WaitForIP_empty_reply_panics :
    (WaitForIP vmA ⟨none, none, [Except.ok ⟨"1", []⟩,
        Except.ok (reply "2" [assignIP (some (AnyType.str "10.0.0.5"))])], none⟩).outcome
      = Outcome.panicked "expected to receive property change" ∧
    cursors (WaitForIP vmA ⟨none, none, [Except.ok ⟨"1", []⟩,
        Except.ok (reply "2" [assignIP (some (AnyType.str "10.0.0.5"))])], none⟩).trace = [""] := by
  decide

/-- C6, amended: on a successful reply that carries no `guest.ipAddress` assign for the VM,
reached after replies that kept the loop waiting, `WaitForIP` panics with
"expected to receive property change"; that poll is the last `WaitForUpdates`
call, and the deferred `Destroy` is called exactly once. -/
theorem WaitForIP_no_assign_panics (vm : ManagedObjectReference) (c : Collector)
    (pre : List UpdateSet) (res : UpdateSet) (rest : List (Except GoError UpdateSet))
    (hp : c.newPropertyCollector = none) (hf : c.createFilter = none)
    (hu : c.updates = pre.map Except.ok ++ Except.ok res :: rest)
    (hw : ∀ r ∈ pre, keepsWaiting vm r = true)
    (hno : ¬ hasAssign vm res) :
    (WaitForIP vm c).outcome = Outcome.panicked panicMsg ∧
    countWaitForUpdates (WaitForIP vm c).trace = pre.length + 1 ∧
    countDestroy (WaitForIP vm c).trace = 1 := by
  have hsel : selectProp vm res = none := (selectProp_eq_none_iff vm res).2 hno
  have hloop := pollLoop_keep vm pre (Except.ok res :: rest) "" hw
  rw [← hu] at hloop
  have hbody := waitBody_created vm c hf
  rw [hloop] at hbody
  simp only [pollLoop, hsel] at hbody
  have hrun := WaitForIP_unblocked vm c hp (by rw [hbody]; simp)
  rw [hbody] at hrun
  have hcur := cursorsOf_length "" pre
  obtain ⟨_, h2, h3, _⟩ :=
    counts_full (filterRequest vm) (cursorsOf "" pre ++ [lastVersion "" pre]) c.destroy
  have hshape : (Call.createFilter (filterRequest vm) ::
      (List.map Call.waitForUpdates (cursorsOf "" pre) ++
        [Call.waitForUpdates (lastVersion "" pre)]) ++ [Call.destroy c.destroy]) =
      Call.createFilter (filterRequest vm) ::
        (List.map Call.waitForUpdates (cursorsOf "" pre ++ [lastVersion "" pre]) ++
          [Call.destroy c.destroy]) := by simp
  rw [hrun]
  simp only [hshape]
  refine ⟨trivial, ?_, h2⟩
  rw [h3, List.length_append, hcur]
  rfl

/-- C6 amended, at a reply that only carries records of another VM. -/
theorem WaitForIP_no_assign_panics_witness :
    (WaitForIP vmA ⟨none, none, [Except.ok (reply "1" [assignIP none]),
        Except.ok ⟨"2", [⟨[⟨vmB, [assignIP (some (AnyType.str "10.0.0.9"))]⟩]⟩]⟩], none⟩).outcome
      = Outcome.panicked panicMsg :=
  (WaitForIP_no_assign_panics vmA ⟨none, none, [Except.ok (reply "1" [assignIP none]),
        Except.ok ⟨"2", [⟨[⟨vmB, [assignIP (some (AnyType.str "10.0.0.9"))]⟩]⟩]⟩], none⟩
    [reply "1" [assignIP none]] ⟨"2", [⟨[⟨vmB, [assignIP (some (AnyType.str "10.0.0.9"))]⟩]⟩]⟩ []
    rfl rfl rfl (by decide)
    (by
      rw [← selectProp_eq_none_iff]
      decide)).1

/-- C7 fails as stated: a reply whose only `guest.ipAddress` record has op remove
selects no change; the record is not the one handed to the termination test. -/
theorem selectProp_remove_is_dropped :
    selectProp vmA (reply "1" [⟨"guest.ipAddress", PropertyChangeOp.remove, none⟩]) = none ∧
    selectProp vmA (reply "1" [⟨"guest.ipAddress", PropertyChangeOp.remove, none⟩]) ≠
      some ⟨"guest.ipAddress", PropertyChangeOp.remove, none⟩ := by
  decide

/-- C7, amended: the selection only ever yields `guest.ipAddress` records whose op is
assign; for every reply whose `guest.ipAddress` records for the VM all have op
remove, no change is selected and the loop panics at that iteration. -/
theorem selectProp_skips_remove (vm : ManagedObjectReference) (res : UpdateSet) :
    (∀ p, selectProp vm res = some p →
      p.Name = "guest.ipAddress" ∧ p.Op = PropertyChangeOpAssign) ∧
    ((∀ fs ∈ res.FilterSet, ∀ os ∈ fs.ObjectSet, os.Obj = vm → ∀ ch ∈ os.ChangeSet,
        ch.Name = "guest.ipAddress" → ch.Op = PropertyChangeOp.remove) →
      selectProp vm res = none ∧
      ∀ (rest : List (Except GoError UpdateSet)) (v : String),
        pollLoop vm (Except.ok res :: rest) v =
          ⟨[Call.waitForUpdates v], Outcome.panicked panicMsg⟩) := by
  constructor
  · intro p hp
    obtain ⟨_, _, _, _, _, _, hn, ho⟩ := selectProp_some vm res p hp
    exact ⟨hn, ho⟩
  · intro hrem
    have hsel : selectProp vm res = none := by
      rw [selectProp_eq_none_iff]
      rintro ⟨fs, hf, os, ho, hv, ch, hm, hn, hop⟩
      have := hrem fs hf os ho hv ch hm hn
      rw [this] at hop
      exact absurd hop (by decide)
    refine ⟨hsel, fun rest v => ?_⟩
    simp only [pollLoop, hsel]

/-- C7 amended, at a reply whose only `guest.ipAddress` record is a remove. -/
theorem selectProp_skips_remove_witness :
    selectProp vmA (reply "1" [⟨"guest.ipAddress", PropertyChangeOp.remove, none⟩]) = none :=
  ((selectProp_skips_remove vmA
    (reply "1" [⟨"guest.ipAddress", PropertyChangeOp.remove, none⟩])).2 (by decide)).1

/-! ## Lemmas on the predicate of `VirtualMachine.WaitForIP` -/

/-- The predicate returns false, leaving `ip` untouched, on a batch without a
`guest.ipAddress` assign carrying a value. -/
theorem ipPredicate_skip (pc : List PropertyChange) (ip : String)
    (h : ∀ c ∈ pc, c.Name = "guest.ipAddress" → c.Op = PropertyChangeOpAssign → c.Val = none) :
    ipPredicate pc ip = Except.ok (false, ip) := by
  induction pc with
  | nil => rfl
  | cons c pc ih =>
    have ih1 := ih (fun x hx => h x (List.mem_cons_of_mem _ hx))
    by_cases hn : c.Name = "guest.ipAddress"
    · by_cases ho : c.Op = PropertyChangeOpAssign
      · have hv := h c (List.mem_cons_self _ _) hn ho
        simp only [ipPredicate, hn, ho, hv, ne_eq, not_true_eq_false, if_false]
        exact ih1
      · simp only [ipPredicate, hn, ho, ne_eq, not_true_eq_false, not_false_eq_true,
          if_false, if_true]
        exact ih1
    · simp only [ipPredicate, hn, ne_eq, not_false_eq_true, if_true]
      exact ih1

/-- The predicate stops at the first `guest.ipAddress` assign carrying a value:
if that value is the string `s`, it returns true with `ip = s`. -/
theorem ipPredicate_first (pre post : List PropertyChange) (c : PropertyChange)
    (s ip : String)
    (hpre : ∀ x ∈ pre, x.Name = "guest.ipAddress" → x.Op = PropertyChangeOpAssign →
      x.Val = none)
    (hn : c.Name = "guest.ipAddress") (ho : c.Op = PropertyChangeOpAssign)
    (hv : c.Val = some (AnyType.str s)) :
    ipPredicate (pre ++ c :: post) ip = Except.ok (true, s) := by
  induction pre with
  | nil => simp only [List.nil_append, ipPredicate, hn, ho, hv, ne_eq, not_true_eq_false, if_false]
  | cons x pre ih =>
    have ih1 := ih (fun y hy => hpre y (List.mem_cons_of_mem _ hy))
    rw [List.cons_append]
    by_cases hxn : x.Name = "guest.ipAddress"
    · by_cases hxo : x.Op = PropertyChangeOpAssign
      · have hxv := hpre x (List.mem_cons_self _ _) hxn hxo
        simp only [ipPredicate, hxn, hxo, hxv, ne_eq, not_true_eq_false, if_false]
        exact ih1
      · simp only [ipPredicate, hxn, hxo, ne_eq, not_true_eq_false, not_false_eq_true,
          if_false, if_true]
        exact ih1
    · simp only [ipPredicate, hxn, ne_eq, not_false_eq_true, if_true]
      exact ih1

/-- When the predicate returns true, `ip` is the string of a `guest.ipAddress`
assign of the batch. -/
theorem ipPredicate_true (pc : List PropertyChange) (ip0 ip : String)
    (h : ipPredicate pc ip0 = Except.ok (true, ip)) :
    ∃ c ∈ pc, c.Name = "guest.ipAddress" ∧ c.Op = PropertyChangeOpAssign ∧
      c.Val = some (AnyType.str ip) := by
  induction pc with
  | nil => simp [ipPredicate] at h
  | cons c pc ih =>
    have step : ipPredicate pc ip0 = Except.ok (true, ip) →
        ∃ x ∈ c :: pc, x.Name = "guest.ipAddress" ∧ x.Op = PropertyChangeOpAssign ∧
          x.Val = some (AnyType.str ip) := by
      intro h1
      obtain ⟨x, hx, hr⟩ := ih h1
      exact ⟨x, List.mem_cons_of_mem _ hx, hr⟩
    by_cases hn : c.Name = "guest.ipAddress"
    · by_cases ho : c.Op = PropertyChangeOpAssign
      · cases hv : c.Val with
        | none =>
          simp only [ipPredicate, hn, ho, hv, ne_eq, not_true_eq_false, if_false] at h
          exact step h
        | some a =>
          cases a with
          | str s =>
            simp only [ipPredicate, hn, ho, hv, ne_eq, not_true_eq_false, if_false] at h
            have hs : s = ip := by
              injection h with h
              exact (Prod.mk.inj h).2
            exact ⟨c, List.mem_cons_self _ _, hn, ho, by rw [hv, hs]⟩
          | int n =>
            simp only [ipPredicate, hn, ho, hv, ne_eq, not_true_eq_false, if_false] at h
            exact absurd h (by simp)
          | bool b =>
            simp only [ipPredicate, hn, ho, hv, ne_eq, not_true_eq_false, if_false] at h
            exact absurd h (by simp)
      · simp only [ipPredicate, hn, ho, ne_eq, not_true_eq_false, not_false_eq_true,
          if_false, if_true] at h
        exact step h
    · simp only [ipPredicate, hn, ne_eq, not_false_eq_true, if_true] at h
      exact step h

/-- A wait that ends with nil ended on a delivered batch on which the predicate
returned true. -/
theorem Wait_success (ds : List Delivery) (ip0 ip : String)
    (h : Wait ipPredicate ds ip0 = (Outcome.returned none, ip)) :
    ∃ pc s, Delivery.batch pc ∈ ds ∧ ipPredicate pc s = Except.ok (true, ip) := by
  induction ds generalizing ip0 with
  | nil => simp [Wait] at h
  | cons d ds ih =>
    cases d with
    | fail err => simp [Wait] at h
    | batch pc =>
      rw [Wait] at h
      cases hf : ipPredicate pc ip0 with
      | error m => simp [hf] at h
      | ok r =>
        obtain ⟨b, s1⟩ := r
        cases b with
        | true =>
          simp only [hf] at h
          have hs : s1 = ip := (Prod.mk.inj h).2
          exact ⟨pc, ip0, List.mem_cons_self _ _, by rw [hf, hs]⟩
        | false =>
          simp only [hf] at h
          obtain ⟨pc1, s, hm, hr⟩ := ih s1 h
          exact ⟨pc1, s, List.mem_cons_of_mem _ hm, hr⟩

/-- What `VirtualMachine.WaitForIP` returns after a batch on which the predicate is true. -/
theorem WaitForIP_of_true (pc : List PropertyChange) (rest : List Delivery) (s : String)
    (h : ipPredicate pc "" = Except.ok (true, s)) :
    VirtualMachine.WaitForIP (Delivery.batch pc :: rest) = IPOutcome.returned s none := by
  simp [VirtualMachine.WaitForIP, Wait, h, waitResult]

/-! ## Claims on `VirtualMachine.WaitForIP` and on absent values -/

/-- C8 fails as stated: on a batch whose only `guest.ipAddress` record is an assign of the
empty string the predicate returns true, and `WaitForIP` returns the empty address
with a nil error. -/
theorem ipPredicate_accepts_empty_string :
    ipPredicate [assignIP (some (AnyType.str ""))] "" = Except.ok (true, "") ∧
    VirtualMachine.WaitForIP [Delivery.batch [assignIP (some (AnyType.str ""))]] =
      IPOutcome.returned "" none :=
  ⟨rfl, by decide⟩

/-- C8, amended: the predicate returns false on a batch whose `guest.ipAddress` assigns
all have absent values; on a following batch whose first `guest.ipAddress` assign
with a value carries the string s (the empty string included) it returns true
and `WaitForIP` reports s; and whenever `WaitForIP` returns an address with a nil
error, that address is the string of a `guest.ipAddress` assign of a delivered
batch. -/
theorem WaitForIP_reports_assigned_string (s : String) (b1 pre post : List PropertyChange)
    (c : PropertyChange) (rest : List Delivery)
    (h1 : ∀ x ∈ b1, x.Name = "guest.ipAddress" → x.Op = PropertyChangeOpAssign → x.Val = none)
    (hpre : ∀ x ∈ pre, x.Name = "guest.ipAddress" → x.Op = PropertyChangeOpAssign →
      x.Val = none)
    (hn : c.Name = "guest.ipAddress") (ho : c.Op = PropertyChangeOpAssign)
    (hv : c.Val = some (AnyType.str s)) :
    ipPredicate b1 "" = Except.ok (false, "") ∧
    ipPredicate (pre ++ c :: post) "" = Except.ok (true, s) ∧
    VirtualMachine.WaitForIP
      (Delivery.batch b1 :: Delivery.batch (pre ++ c :: post) :: rest) =
        IPOutcome.returned s none ∧
    ∀ (ds : List Delivery) (ip : String),
      VirtualMachine.WaitForIP ds = IPOutcome.returned ip none →
      ∃ pc, Delivery.batch pc ∈ ds ∧ ∃ x ∈ pc, x.Name = "guest.ipAddress" ∧
        x.Op = PropertyChangeOpAssign ∧ x.Val = some (AnyType.str ip) := by
  have e1 := ipPredicate_skip b1 "" h1
  have e2 := ipPredicate_first pre post c s "" hpre hn ho hv
  refine ⟨e1, e2, ?_, ?_⟩
  · simp [VirtualMachine.WaitForIP, Wait, e1, e2, waitResult]
  · intro ds ip h
    unfold VirtualMachine.WaitForIP at h
    cases hw : Wait ipPredicate ds "" with
    | mk o ip1 =>
      rw [hw] at h
      cases o with
      | blocked => simp at h
      | panicked m => simp at h
      | returned err =>
        cases err with
        | some e => simp [waitResult] at h
        | none =>
          simp [waitResult] at h
          subst h
          obtain ⟨pc, s0, hm, hr⟩ := Wait_success ds "" ip1 hw
          exact ⟨pc, hm, ipPredicate_true pc s0 ip1 hr⟩

/-- C8 amended, at the scenario of the spec with an absent value first: the second batch
assigns "10.0.0.5". -/
theorem WaitForIP_reports_assigned_string_witness :
    VirtualMachine.WaitForIP
      (Delivery.batch [assignIP none] ::
        Delivery.batch ([] ++ assignIP (some (AnyType.str "10.0.0.5")) :: []) :: []) =
      IPOutcome.returned "10.0.0.5" none :=
  (WaitForIP_reports_assigned_string "10.0.0.5" [assignIP none] [] []
    (assignIP (some (AnyType.str "10.0.0.5"))) [] (by decide) (by decide) rfl rfl rfl).2.2.1

/-- C9: an assign of `guest.ipAddress` with an absent value keeps both waits going.  The
predicate of `VirtualMachine.WaitForIP` returns false (no panic) on every batch whose
`guest.ipAddress` assigns all have absent values; govc's loop, on a reply that
carries such an assign for the VM and none with a value, neither panics nor
returns: it issues the next `WaitForUpdates` call with the version of that reply. -/
theorem absent_value_keeps_waiting :
    (∀ (pc : List PropertyChange) (ip : String),
      (∀ c ∈ pc, c.Name = "guest.ipAddress" → c.Op = PropertyChangeOpAssign → c.Val = none) →
      ipPredicate pc ip = Except.ok (false, ip)) ∧
    (∀ (vm : ManagedObjectReference) (res : UpdateSet)
      (rest : List (Except GoError UpdateSet)) (v : String),
      hasAssign vm res →
      (∀ fs ∈ res.FilterSet, ∀ os ∈ fs.ObjectSet, os.Obj = vm → ∀ ch ∈ os.ChangeSet,
        ch.Name = "guest.ipAddress" → ch.Op = PropertyChangeOpAssign → ch.Val = none) →
      (pollLoop vm (Except.ok res :: rest) v).outcome =
        (pollLoop vm rest res.Version).outcome ∧
      ∃ t, (pollLoop vm (Except.ok res :: rest) v).trace =
        Call.waitForUpdates v :: Call.waitForUpdates res.Version :: t) := by
  refine ⟨ipPredicate_skip, ?_⟩
  intro vm res rest v hex hnil
  have hk : keepsWaiting vm res = true := by
    rw [keepsWaiting_iff]
    cases hs : selectProp vm res with
    | none => exact absurd hex ((selectProp_eq_none_iff vm res).1 hs)
    | some p =>
      obtain ⟨fs, hf, os, ho, hv, hm, hn, hop⟩ := selectProp_some vm res p hs
      exact ⟨p, rfl, hnil fs hf os ho hv p hm hn hop⟩
  rw [pollLoop_step vm res rest v hk]
  obtain ⟨vs, hvs⟩ := pollLoop_trace vm rest res.Version
  exact ⟨rfl, vs.map Call.waitForUpdates, by simp [hvs]⟩

/-- C9, at a batch and a reply whose only record is an assign with an absent value. -/
theorem absent_value_keeps_waiting_witness :
    ipPredicate [assignIP none] "" = Except.ok (false, "") ∧
    (pollLoop vmA [Except.ok (reply "7" [assignIP none])] "").outcome =
      (pollLoop vmA [] "7").outcome :=
  ⟨absent_value_keeps_waiting.1 [assignIP none] "" (by decide),
    (absent_value_keeps_waiting.2 vmA (reply "7" [assignIP none]) [] ""
      ⟨_, List.mem_cons_self _ _, _, List.mem_cons_self _ _, rfl, _,
        List.mem_cons_self _ _, rfl, rfl⟩ (by decide)).1⟩

/-- C10 fails as stated: of two assigns of `guest.ipAddress` with values in one batch,
`WaitForIP` reports the first, not the last. -/
theorem WaitForIP_reports_first_not_last :
    ipPredicate [assignIP (some (AnyType.str "10.0.0.1")),
      assignIP (some (AnyType.str "10.0.0.2"))] "" = Except.ok (true, "10.0.0.1") ∧
    VirtualMachine.WaitForIP [Delivery.batch [assignIP (some (AnyType.str "10.0.0.1")),
      assignIP (some (AnyType.str "10.0.0.2"))]] = IPOutcome.returned "10.0.0.1" none ∧
    VirtualMachine.WaitForIP [Delivery.batch [assignIP (some (AnyType.str "10.0.0.1")),
      assignIP (some (AnyType.str "10.0.0.2"))]] ≠ IPOutcome.returned "10.0.0.2" none :=
  ⟨rfl, by decide⟩

/-! ## Cancellation -/

/-- An error returned by the polling loop is an error replied to a poll. -/
theorem pollLoop_error_mem (vm : ManagedObjectReference) (us : List (Except GoError UpdateSet))
    (v : String) (e : GoError)
    (h : (pollLoop vm us v).outcome = Outcome.returned (some e)) :
    Except.error e ∈ us := by
  induction us generalizing v with
  | nil => simp [pollLoop] at h
  | cons u us ih =>
    cases u with
    | error e1 =>
      simp only [pollLoop, Outcome.returned.injEq, Option.some.injEq] at h
      rw [h]
      exact List.mem_cons_self _ _
    | ok res =>
      rw [pollLoop] at h
      cases hsel : selectProp vm res with
      | none => simp [hsel] at h
      | some prop =>
        by_cases hv : prop.Val = none
        · simp only [hsel, hv, ne_eq, not_true_eq_false, if_false] at h
          exact List.mem_cons_of_mem _ (ih res.Version h)
        · simp [hsel, hv] at h

/-- Under `context.TODO()` the cancellable watch is the plain watch. -/
theorem WaitCtx_TODO {σ : Type} (f : List PropertyChange → σ → Except String (Bool × σ))
    (n : Nat) (ds : List Delivery) (s : σ) :
    WaitCtx Context.TODO f n ds s = Wait f ds s := by
  induction ds generalizing n s with
  | nil => simp [WaitCtx, Wait, Context.TODO]
  | cons d ds ih =>
    cases d with
    | fail err => simp [WaitCtx, Wait, Context.TODO]
    | batch pc =>
      simp only [WaitCtx, Wait, Context.TODO, Bool.false_eq_true, if_false]
      cases hf : f pc s with
      | error m => rfl
      | ok r =>
        obtain ⟨b, s1⟩ := r
        cases b with
        | true => rfl
        | false =>
          have := ih (n + 1) s1
          simp only [Context.TODO] at this
          exact this

/-- C11 fails as stated: with the filter created and the first poll pending, govc's
`WaitForIP` stays blocked in that poll and no `Destroy` is called; nothing the caller
does reaches it.  The cancellable watch of the spec, called through
`Client.WaitForProperties`, runs under `context.TODO()` and stays blocked as well,
where under a cancelled context it would end with `context.Canceled`. -/
theorem WaitForIP_pending_poll_not_cancelled :
    WaitForIP vmA ⟨none, none, [], none⟩ =
      ⟨[Call.newPropertyCollector, Call.createFilter (filterRequest vmA),
          Call.waitForUpdates ""], Outcome.blocked⟩ ∧
    countDestroy (WaitForIP vmA ⟨none, none, [], none⟩).trace = 0 ∧
    Client.WaitForProperties (fun ctx ds => (WaitCtx ctx ipPredicate 0 ds "").1) [] =
      Outcome.blocked ∧
    (WaitCtx ⟨fun _ => true⟩ ipPredicate 0 [] "").1 = Outcome.returned (some errCanceled) := by
  decide

/-- An error returned by the watch is the error of a poll. -/
theorem Wait_error_mem {σ : Type} (f : List PropertyChange → σ → Except String (Bool × σ))
    (ds : List Delivery) (s : σ) (e : GoError)
    (h : (Wait f ds s).1 = Outcome.returned (some e)) :
    Delivery.fail e ∈ ds := by
  induction ds generalizing s with
  | nil => simp [Wait] at h
  | cons d ds ih =>
    cases d with
    | fail err =>
      simp only [Wait, Outcome.returned.injEq, Option.some.injEq] at h
      rw [h]
      exact List.mem_cons_self _ _
    | batch pc =>
      rw [Wait] at h
      cases hf : f pc s with
      | error m => simp [hf] at h
      | ok r =>
        obtain ⟨b, s1⟩ := r
        cases b with
        | true => simp [hf] at h
        | false =>
          simp only [hf] at h
          exact List.mem_cons_of_mem _ (ih s1 h)

/-- C11, amended: no cancellation reaches the watch.  Every error govc's `WaitForIP`
returns is an error replied by the remote side; with the filter created and the
first poll pending it stays blocked in that poll, having called no `Destroy`.
`Client.WaitForProperties` runs the wait under `context.TODO()`: the cancellable watch
of the spec, run through it, is the watch without cancellation, from any poll
number; it stays blocked while the first poll is pending, leaving the state of
the predicate untouched, and every error it returns is the error of a poll. -/
theorem watch_takes_no_cancellation :
    (∀ (vm : ManagedObjectReference) (c : Collector) (e : GoError),
      (WaitForIP vm c).outcome = Outcome.returned (some e) →
      c.newPropertyCollector = some e ∨ c.createFilter = some e ∨
        Except.error e ∈ c.updates) ∧
    (∀ (vm : ManagedObjectReference) (c : Collector),
      c.newPropertyCollector = none → c.createFilter = none → c.updates = [] →
      WaitForIP vm c =
        ⟨[Call.newPropertyCollector, Call.createFilter (filterRequest vm),
            Call.waitForUpdates ""], Outcome.blocked⟩ ∧
      countDestroy (WaitForIP vm c).trace = 0) ∧
    (∀ (σ : Type) (f : List PropertyChange → σ → Except String (Bool × σ)) (n : Nat)
      (ds : List Delivery) (s : σ),
      WaitCtx Context.TODO f n ds s = Wait f ds s ∧
      Client.WaitForProperties (fun ctx a => (WaitCtx ctx f n a s).1) ds = (Wait f ds s).1 ∧
      WaitCtx Context.TODO f n [] s = (Outcome.blocked, s) ∧
      Client.WaitForProperties (fun ctx a => (WaitCtx ctx f n a s).1) [] = Outcome.blocked ∧
      ∀ e, Client.WaitForProperties (fun ctx a => (WaitCtx ctx f n a s).1) ds =
          Outcome.returned (some e) → Delivery.fail e ∈ ds) := by
  refine ⟨?_, ?_, ?_⟩
  · intro vm c e h
    cases hp : c.newPropertyCollector with
    | some err =>
      simp only [WaitForIP, hp, Outcome.returned.injEq, Option.some.injEq] at h
      left; rw [h]
    | none =>
      rw [WaitForIP_outcome vm c hp] at h
      cases hf : c.createFilter with
      | some err =>
        simp only [waitBody, hf, Outcome.returned.injEq, Option.some.injEq] at h
        right; left; rw [h]
      | none =>
        rw [waitBody_created vm c hf] at h
        right; right
        exact pollLoop_error_mem vm c.updates "" e h
  · intro vm c hp hf hu
    have hrun : WaitForIP vm c =
        ⟨[Call.newPropertyCollector, Call.createFilter (filterRequest vm),
            Call.waitForUpdates ""], Outcome.blocked⟩ := by
      simp [WaitForIP, waitBody, pollLoop, hp, hf, hu]
    rw [hrun]
    exact ⟨rfl, rfl⟩
  · intro σ f n ds s
    have h1 : ∀ a, Client.WaitForProperties (fun ctx a => (WaitCtx ctx f n a s).1) a =
        (Wait f a s).1 := by
      intro a
      show (WaitCtx Context.TODO f n a s).1 = (Wait f a s).1
      rw [WaitCtx_TODO]
    refine ⟨WaitCtx_TODO f n ds s, h1 ds, ?_, ?_, ?_⟩
    · rw [WaitCtx_TODO]; rfl
    · rw [h1]; rfl
    · intro e he
      rw [h1] at he
      exact Wait_error_mem f ds s e he

/-- C11 amended, at a collector whose first poll is pending. -/
theorem watch_takes_no_cancellation_witness :
    WaitForIP vmA ⟨none, none, [], some errDestroy⟩ =
        ⟨[Call.newPropertyCollector, Call.createFilter (filterRequest vmA),
            Call.waitForUpdates ""], Outcome.blocked⟩ ∧
      countDestroy (WaitForIP vmA ⟨none, none, [], some errDestroy⟩).trace = 0 :=
  watch_takes_no_cancellation.2.1 vmA ⟨none, none, [], some errDestroy⟩ rfl rfl rfl

/-! ## Claims on `Run` -/

/-- Without the flag the loop makes one read and no `WaitForIP` call. -/
theorem readLoop_no_flag (vm : ManagedObjectReference) (props : List String)
    (reads : List (Except GoError Mo.VirtualMachine)) (waits : List Collector) :
    countProperties (readLoop false vm props reads waits).1 = 1 ∧
    countWaitForIP (readLoop false vm props reads waits).1 = 0 := by
  cases reads with
  | nil => exact ⟨rfl, rfl⟩
  | cons r reads =>
    cases r with
    | error err => exact ⟨rfl, rfl⟩
    | ok res => exact ⟨rfl, rfl⟩

/-- The loop never ends `Run` with a nil error: `Run` returns nil only through
`WriteResult`. -/
theorem readLoop_ended (flag : Bool) (vm : ManagedObjectReference) (props : List String)
    (reads : List (Except GoError Mo.VirtualMachine)) (waits : List Collector)
    (o : Outcome) (h : (readLoop flag vm props reads waits).2 = LoopEnd.ended o) :
    o ≠ Outcome.returned none := by
  induction reads generalizing waits with
  | nil =>
    simp only [readLoop, LoopEnd.ended.injEq] at h
    rw [← h]; simp
  | cons r reads ih =>
    cases r with
    | error err =>
      simp only [readLoop, LoopEnd.ended.injEq] at h
      rw [← h]; simp
    | ok res =>
      cases waits with
      | nil =>
        rw [readLoop] at h
        split at h
        · split at h
          · simp only [LoopEnd.ended.injEq] at h
            rw [← h]; simp
          · split at h
            · simp only [LoopEnd.ended.injEq] at h
              rw [← h]; simp
            · simp at h
        · simp at h
      | cons w waits1 =>
        rw [readLoop] at h
        split at h
        · split at h
          · simp only [LoopEnd.ended.injEq] at h
            rw [← h]; simp
          · split at h
            · split at h
              · exact ih _ h
              · rename_i hne
                simp only [LoopEnd.ended.injEq] at h
                rw [← h]
                exact fun hc => hne hc
            · simp at h
        · simp at h

/-- With the flag, a loop left by `break` ends with the read of the snapshot it
hands on; that snapshot has a non-empty address, and every `WaitForIP` call of the
loop came before that read and returned nil. -/
theorem readLoop_done (vm : ManagedObjectReference) (props : List String)
    (reads : List (Except GoError Mo.VirtualMachine)) (waits : List Collector)
    (res : Mo.VirtualMachine)
    (h : (readLoop true vm props reads waits).2 = LoopEnd.done res) :
    ∃ pre guest, (readLoop true vm props reads waits).1 =
        pre ++ [RunCall.properties props (some res)] ∧
      res.Guest = some guest ∧ guest.IpAddress ≠ "" ∧
      ∀ r, RunCall.waitForIP r ∈ (readLoop true vm props reads waits).1 →
        RunCall.waitForIP r ∈ pre ∧ r.outcome = Outcome.returned none := by
  induction reads generalizing waits with
  | nil => simp [readLoop] at h
  | cons r reads ih =>
    cases r with
    | error err => simp [readLoop] at h
    | ok snap =>
      cases hg : snap.Guest with
      | none =>
        cases waits with
        | nil => simp [readLoop, hg] at h
        | cons w waits1 => simp [readLoop, hg] at h
      | some guest =>
        by_cases hip : guest.IpAddress = ""
        · cases waits with
          | nil => simp [readLoop, hg, hip] at h
          | cons w waits1 =>
            rw [readLoop] at h ⊢
            simp only [if_true, hg, hip] at h ⊢
            cases ho : (Govc.WaitForIP vm w).outcome with
            | blocked => simp [ho] at h
            | panicked m => simp [ho] at h
            | returned err =>
              cases err with
              | some e => simp [ho] at h
              | none =>
                simp only [ho] at h ⊢
                obtain ⟨pre, g, h1, h2, h3, h4⟩ := ih waits1 h
                refine ⟨RunCall.properties props (some snap) ::
                  RunCall.waitForIP (Govc.WaitForIP vm w) :: pre, g, ?_, h2, h3, ?_⟩
                · rw [h1]; simp
                · intro r hr
                  simp only [List.mem_cons, RunCall.waitForIP.injEq, reduceCtorEq,
                    false_or] at hr
                  rcases hr with hr | hr
                  · subst hr
                    exact ⟨by simp, ho⟩
                  · obtain ⟨h5, h6⟩ := h4 r hr
                    exact ⟨by simp [h5], h6⟩
        · have hrun : readLoop true vm props (Except.ok snap :: reads) waits =
              ([RunCall.properties props (some snap)], LoopEnd.done snap) := by
            cases waits with
            | nil => simp [readLoop, hg, hip]
            | cons w waits1 => simp [readLoop, hg, hip]
          rw [hrun] at h ⊢
          simp only [LoopEnd.done.injEq] at h
          subst h
          exact ⟨[], guest, rfl, hg, hip, by simp⟩

/-- C12 fails as stated: without `-waitip` and without an argument, `Run` returns
"no argument" before the loop and performs no `Properties` read at all. -/
theorem Run_no_argument_reads_nothing :
    infoNoArg.WaitForIP = false ∧
    (info.Run infoNoArg).outcome = Outcome.returned (some ⟨"no argument"⟩) ∧
    countProperties (info.Run infoNoArg).calls = 0 := by
  decide

/-- C12, amended: with `-waitip`, when `Run` returns nil its last two calls are a
`Properties` read and the `WriteResult` of the snapshot just read, which has a
non-empty `Guest.IpAddress`; every `WaitForIP` call came before that read and
returned nil.  Without the flag `Run` never calls `WaitForIP` and performs at
most one `Properties` read: exactly one once the client and the virtual machine
are resolved.  With or without the flag `Run` makes no call at all and returns
the error when the client is not obtained or the virtual machine is not
resolved: the search fails, there is no argument ("no argument"), the listing
fails, or no listed reference is a virtual machine. -/
theorem Run_writes_last_read (c : info) :
    (c.WaitForIP = true → (info.Run c).outcome = Outcome.returned none →
      ∃ pre res guest,
        (info.Run c).calls =
          pre ++ [RunCall.properties c.props (some res), RunCall.writeResult res] ∧
        res.Guest = some guest ∧ guest.IpAddress ≠ "" ∧
        ∀ r, RunCall.waitForIP r ∈ (info.Run c).calls →
          RunCall.waitForIP r ∈ pre ∧ r.outcome = Outcome.returned none) ∧
    (c.WaitForIP = false →
      countWaitForIP (info.Run c).calls = 0 ∧
      countProperties (info.Run c).calls ≤ 1 ∧
      (c.client = none → (∃ vm, c.resolve = Except.ok vm) →
        countProperties (info.Run c).calls = 1)) ∧
    (∀ e, c.client = some e → info.Run c = ⟨[], Outcome.returned (some e)⟩) ∧
    (∀ e, c.client = none → c.resolve = Except.error e →
      info.Run c = ⟨[], Outcome.returned (some e)⟩) ∧
    (∀ e, c.searchIsset = true → c.searchVM = Except.error e →
      c.resolve = Except.error e) ∧
    (c.searchIsset = false → c.arg = "" → c.resolve = Except.error ⟨"no argument"⟩) ∧
    (∀ e, c.searchIsset = false → c.arg ≠ "" → c.list = Except.error e →
      c.resolve = Except.error e) ∧
    (∀ es, c.searchIsset = false → c.arg ≠ "" → c.list = Except.ok es →
      (∀ ref ∈ es, ref.Typ ≠ "VirtualMachine") →
      c.resolve = Except.error ⟨"argument doesn\x27t resolve to VM"⟩) := by
  refine ⟨?_, ?_, ?_, ?_, ?_, ?_, ?_, ?_⟩
  · intro hflag hout
    unfold info.Run at hout ⊢
    cases hc : c.client with
    | some err => simp [hc] at hout
    | none =>
      simp only [hc] at hout ⊢
      cases hr : c.resolve with
      | error err => simp [hr] at hout
      | ok vm =>
        simp only [hr] at hout ⊢
        rw [hflag] at hout ⊢
        cases hl : readLoop true vm c.props c.reads c.waits with
        | mk t e =>
          have hl2 : (readLoop true vm c.props c.reads c.waits).2 = e := by rw [hl]
          have hl1 : (readLoop true vm c.props c.reads c.waits).1 = t := by rw [hl]
          cases e with
          | ended o =>
            simp only [hl] at hout
            exact absurd hout (readLoop_ended true vm c.props c.reads c.waits o hl2)
          | done res =>
            obtain ⟨pre, guest, h1, h2, h3, h4⟩ :=
              readLoop_done vm c.props c.reads c.waits res hl2
            rw [hl1] at h1 h4
            refine ⟨pre, res, guest, ?_, h2, h3, ?_⟩
            · simp [h1]
            · intro r hr1
              simp only [List.mem_append, List.mem_singleton, reduceCtorEq, or_false] at hr1
              exact h4 r hr1
  · intro hflag
    unfold info.Run
    cases hc : c.client with
    | some err => simp [countWaitForIP, countProperties]
    | none =>
      cases hr : c.resolve with
      | error err => simp [countWaitForIP, countProperties]
      | ok vm =>
        simp only []
        rw [hflag]
        obtain ⟨h1, h2⟩ := readLoop_no_flag vm c.props c.reads c.waits
        cases hl : readLoop false vm c.props c.reads c.waits with
        | mk t e =>
          rw [hl] at h1 h2
          simp only at h1 h2
          cases e with
          | ended o =>
            simp only []
            exact ⟨h2, by omega, fun _ _ => h1⟩
          | done res =>
            simp only []
            have e1 : countWaitForIP (t ++ [RunCall.writeResult res]) = 0 := by
              unfold countWaitForIP at h2 ⊢
              rw [List.countP_append, h2]
              rfl
            have e2 : countProperties (t ++ [RunCall.writeResult res]) = 1 := by
              unfold countProperties at h1 ⊢
              rw [List.countP_append, h1]
              rfl
            exact ⟨e1, by omega, fun _ _ => e2⟩
  · intro e hc
    simp [info.Run, hc]
  · intro e hc hr
    simp [info.Run, hc, hr]
  · intro e hs hv
    simp [info.resolve, hs, hv]
  · intro hs ha
    simp [info.resolve, hs, ha]
  · intro e hs ha hl
    simp [info.resolve, hs, ha, hl]
  · intro es hs ha hl hno
    have hfind : es.find? (fun ref => decide (ref.Typ = "VirtualMachine")) = none := by
      rw [List.find?_eq_none]
      intro ref href
      simpa using hno ref href
    simp [info.resolve, hs, ha, hl, hfind]

/-- C12 amended, at a run with `-waitip` that waits once and at a run without the flag. -/
theorem Run_writes_last_read_witness :
    (∃ pre res guest,
      (info.Run infoWait).calls =
        pre ++ [RunCall.properties infoWait.props (some res), RunCall.writeResult res] ∧
      res.Guest = some guest ∧ guest.IpAddress ≠ "" ∧
      ∀ r, RunCall.waitForIP r ∈ (info.Run infoWait).calls →
        RunCall.waitForIP r ∈ pre ∧ r.outcome = Outcome.returned none) ∧
    countProperties (info.Run infoPlain).calls = 1 ∧
    info.Run infoNoArg = ⟨[], Outcome.returned (some ⟨"no argument"⟩)⟩ :=
  ⟨(Run_writes_last_read infoWait).1 rfl (by decide),
    ((Run_writes_last_read infoPlain).2.1 rfl).2.2 rfl ⟨vmA, rfl⟩,
    (Run_writes_last_read infoNoArg).2.2.2.1 ⟨"no argument"⟩ rfl
      ((Run_writes_last_read infoNoArg).2.2.2.2.2.1 rfl rfl)⟩

/-! ## Claims on `NewClient` -/

/-- C13 fails as stated: with user information in the URL, `Login` is not called
when the creation of the vim25 client fails. -/
theorem NewClient_no_login_without_client :
    (⟨"vcenter", some "root"⟩ : URL).User ≠ none ∧
    countLogin (NewClient ⟨some errTransport, none⟩ ⟨"vcenter", some "root"⟩ false).calls = 0 ∧
    (NewClient ⟨some errTransport, none⟩ ⟨"vcenter", some "root"⟩ false).err =
      some errTransport := by
  decide

/-- C13, amended: `SessionManager.Login` is called exactly once, with the user of the URL,
when `u.User` is non-nil and the vim25 client was created, and never otherwise.
`NewClient` returns a nil client with the error when the creation of the vim25
client or the login fails, and a non-nil client with a nil error otherwise. -/
theorem NewClient_login (srv : Server) (u : URL) (insecure : Bool) :
    (∀ user, u.User = some user → srv.vim25NewClient = none →
      (NewClient srv u insecure).calls =
        [ClientCall.vim25NewClient u insecure, ClientCall.login user] ∧
      countLogin (NewClient srv u insecure).calls = 1) ∧
    (u.User = none ∨ srv.vim25NewClient ≠ none →
      countLogin (NewClient srv u insecure).calls = 0) ∧
    (∀ e, srv.vim25NewClient = some e →
      (NewClient srv u insecure).client = none ∧ (NewClient srv u insecure).err = some e) ∧
    (∀ e, srv.vim25NewClient = none → u.User ≠ none → srv.login = some e →
      (NewClient srv u insecure).client = none ∧ (NewClient srv u insecure).err = some e) ∧
    (srv.vim25NewClient = none → (u.User = none ∨ srv.login = none) →
      (NewClient srv u insecure).client ≠ none ∧ (NewClient srv u insecure).err = none) := by
  refine ⟨?_, ?_, ?_, ?_, ?_⟩
  · intro user hu hv
    cases hl : srv.login <;> simp [NewClient, NewClientFromClient, hu, hv, hl, countLogin]
  · intro h
    cases hv : srv.vim25NewClient with
    | some e => simp [NewClient, hv, countLogin]
    | none =>
      rcases h with h | h
      · simp [NewClient, NewClientFromClient, hv, h, countLogin]
      · exact absurd hv h
  · intro e hv
    simp [NewClient, hv]
  · intro e hv hu hl
    cases hu1 : u.User with
    | none => exact absurd hu1 hu
    | some user => simp [NewClient, NewClientFromClient, hv, hu1, hl]
  · intro hv h
    cases hu1 : u.User with
    | none => simp [NewClient, NewClientFromClient, hv, hu1]
    | some user =>
      rcases h with h | h
      · rw [hu1] at h; simp at h
      · simp [NewClient, NewClientFromClient, hv, hu1, h]

/-- C13 amended, at a URL with user information and a server that accepts the login. -/
theorem NewClient_login_witness :
    countLogin (NewClient ⟨none, none⟩ ⟨"vcenter", some "root"⟩ true).calls = 1 ∧
    (NewClient ⟨none, none⟩ ⟨"vcenter", none⟩ true).err = none :=
  ⟨((NewClient_login ⟨none, none⟩ ⟨"vcenter", some "root"⟩ true).1 "root" rfl rfl).2,
    ((NewClient_login ⟨none, none⟩ ⟨"vcenter", none⟩ true).2.2.2.2 rfl (Or.inl rfl)).2⟩

/-! ## More on the predicate and the result of `VirtualMachine.WaitForIP` -/

/-- A batch with a `guest.ipAddress` assign carrying a value splits at the first one. -/
theorem first_present_split (pc : List PropertyChange) (h : ∃ c ∈ pc, isPresentAssign c) :
    ∃ pre c post, pc = pre ++ c :: post ∧ (∀ x ∈ pre, ¬ isPresentAssign x) ∧
      isPresentAssign c := by
  induction pc with
  | nil =>
    obtain ⟨c, hc, _⟩ := h
    exact absurd hc (List.not_mem_nil _)
  | cons a pc ih =>
    by_cases ha : isPresentAssign a
    · exact ⟨[], a, pc, rfl, by simp, ha⟩
    · obtain ⟨c, hc, hp⟩ := h
      rcases List.mem_cons.1 hc with rfl | hc
      · exact absurd hp ha
      · obtain ⟨pre, c1, post, h1, h2, h3⟩ := ih ⟨c, hc, hp⟩
        refine ⟨a :: pre, c1, post, by rw [h1]; rfl, ?_, h3⟩
        intro x hx
        rcases List.mem_cons.1 hx with rfl | hx
        · exact ha
        · exact h2 x hx

/-- The two ways of saying that a record is no `guest.ipAddress` assign with a value. -/
theorem not_isPresentAssign_iff (x : PropertyChange) :
    ¬ isPresentAssign x ↔
      (x.Name = "guest.ipAddress" → x.Op = PropertyChangeOpAssign → x.Val = none) := by
  unfold isPresentAssign
  constructor
  · intro h hn ho
    by_contra hv
    exact h ⟨hn, ho, hv⟩
  · intro h hp
    exact hp.2.2 (h hp.1 hp.2.1)

/-- The predicate panics at the first `guest.ipAddress` assign carrying a value when
that value is not a string. -/
theorem ipPredicate_first_panics (pre post : List PropertyChange) (c : PropertyChange)
    (a : AnyType) (ip : String)
    (hpre : ∀ x ∈ pre, x.Name = "guest.ipAddress" → x.Op = PropertyChangeOpAssign →
      x.Val = none)
    (hn : c.Name = "guest.ipAddress") (ho : c.Op = PropertyChangeOpAssign)
    (hv : c.Val = some a) (ha : ∀ s, a ≠ AnyType.str s) :
    ipPredicate (pre ++ c :: post) ip = Except.error assertMsg := by
  induction pre with
  | nil =>
    cases a with
    | str s => exact absurd rfl (ha s)
    | int n => simp [ipPredicate, hn, ho, hv]
    | bool b => simp [ipPredicate, hn, ho, hv]
  | cons x pre ih =>
    have hx := hpre x (List.mem_cons_self _ _)
    have ih1 := ih (fun y hy => hpre y (List.mem_cons_of_mem _ hy))
    rw [List.cons_append]
    by_cases hxn : x.Name = "guest.ipAddress"
    · by_cases hxo : x.Op = PropertyChangeOpAssign
      · simp only [ipPredicate, hxn, hxo, hx hxn hxo, ne_eq, not_true_eq_false, if_false]
        exact ih1
      · simp only [ipPredicate, hxn, hxo, ne_eq, not_true_eq_false, not_false_eq_true,
          if_false, if_true]
        exact ih1
    · simp only [ipPredicate, hxn, ne_eq, not_false_eq_true, if_true]
      exact ih1

/-- When the predicate returns true, the captured `ip` is the string of the first
`guest.ipAddress` assign of the batch that carries a value. -/
theorem ipPredicate_true_first (pc : List PropertyChange) (ip0 ip : String)
    (h : ipPredicate pc ip0 = Except.ok (true, ip)) :
    ∃ pre c post, pc = pre ++ c :: post ∧ (∀ x ∈ pre, ¬ isPresentAssign x) ∧
      isPresentAssign c ∧ c.Val = some (AnyType.str ip) := by
  have hex : ∃ c ∈ pc, isPresentAssign c := by
    obtain ⟨c, hc, hn, ho, hv⟩ := ipPredicate_true pc ip0 ip h
    exact ⟨c, hc, hn, ho, by rw [hv]; simp⟩
  obtain ⟨pre, c, post, h1, h2, h3⟩ := first_present_split pc hex
  refine ⟨pre, c, post, h1, h2, h3, ?_⟩
  have hpre : ∀ x ∈ pre, x.Name = "guest.ipAddress" → x.Op = PropertyChangeOpAssign →
      x.Val = none := fun x hx => (not_isPresentAssign_iff x).1 (h2 x hx)
  cases hv : c.Val with
  | none => exact absurd hv h3.2.2
  | some a =>
    by_cases hs : ∃ s, a = AnyType.str s
    · obtain ⟨s, rfl⟩ := hs
      have e := ipPredicate_first pre post c s ip0 hpre h3.1 h3.2.1 hv
      rw [← h1, h] at e
      injection e with e
      rw [(Prod.mk.inj e).2]
    · have e := ipPredicate_first_panics pre post c a ip0 hpre h3.1 h3.2.1 hv
        (fun s hc => hs ⟨s, hc⟩)
      rw [← h1, h] at e
      exact absurd e (by simp)

/-- A wait that ends with nil splits at the batch on which the predicate returned
true; the predicate returned false on the batches before it. -/
theorem Wait_success_split (ds : List Delivery) (ip0 ip : String)
    (h : Wait ipPredicate ds ip0 = (Outcome.returned none, ip)) :
    ∃ before pc after s, ds = before ++ Delivery.batch pc :: after ∧
      ipPredicate pc s = Except.ok (true, ip) := by
  induction ds generalizing ip0 with
  | nil => simp [Wait] at h
  | cons d ds ih =>
    cases d with
    | fail err => simp [Wait] at h
    | batch pc =>
      rw [Wait] at h
      cases hf : ipPredicate pc ip0 with
      | error m => simp [hf] at h
      | ok r =>
        obtain ⟨b, s1⟩ := r
        cases b with
        | true =>
          simp only [hf] at h
          have hs : s1 = ip := (Prod.mk.inj h).2
          exact ⟨[], pc, ds, ip0, rfl, by rw [hf, hs]⟩
        | false =>
          simp only [hf] at h
          obtain ⟨before, pc1, after, s, hd, hr⟩ := ih s1 h
          exact ⟨Delivery.batch pc :: before, pc1, after, s, by rw [hd]; rfl, hr⟩

/-! ## Claims on the predicate, the result of `WaitForIP` and the devices -/

/-- C14 fails as stated: on a batch whose only record is named exactly
"guest.ipAddress", has op assign and carries a value that is not a string, the
predicate does not return true; the type assertion panics. -/
theorem ipPredicate_panics_on_non_string :
    isPresentAssign (assignIP (some (AnyType.int 5))) ∧
    ipPredicate [assignIP (some (AnyType.int 5))] "" = Except.error assertMsg :=
  ⟨⟨rfl, rfl, by decide⟩, rfl⟩

/-- C14, amended: the predicate matches the name by exact string equality.  It returns
true exactly when the first record of the batch whose `Name` is "guest.ipAddress",
whose `Op` is assign and whose `Val` is present carries a string; on batches whose
values are all strings it returns true iff the batch contains such a record;
records with another name or another op never make it return true: a batch of
such records gives false; and when that first record carries a value of another
type, the type assertion panics. -/
theorem ipPredicate_exact_match (pc : List PropertyChange) (ip0 : String) :
    ((∃ ip, ipPredicate pc ip0 = Except.ok (true, ip)) ↔
      ∃ pre c post s, pc = pre ++ c :: post ∧ (∀ x ∈ pre, ¬ isPresentAssign x) ∧
        isPresentAssign c ∧ c.Val = some (AnyType.str s)) ∧
    ((∀ c ∈ pc, ∀ v, c.Val = some v → ∃ s, v = AnyType.str s) →
      ((∃ ip, ipPredicate pc ip0 = Except.ok (true, ip)) ↔
        ∃ c ∈ pc, c.Name = "guest.ipAddress" ∧ c.Op = PropertyChangeOpAssign ∧
          c.Val ≠ none)) ∧
    ((∀ c ∈ pc, c.Name ≠ "guest.ipAddress" ∨ c.Op ≠ PropertyChangeOpAssign) →
      ipPredicate pc ip0 = Except.ok (false, ip0)) ∧
    (∀ (pre post : List PropertyChange) (c : PropertyChange) (a : AnyType),
      pc = pre ++ c :: post → (∀ x ∈ pre, ¬ isPresentAssign x) →
      c.Name = "guest.ipAddress" → c.Op = PropertyChangeOpAssign → c.Val = some a →
      (∀ s, a ≠ AnyType.str s) →
      ipPredicate pc ip0 = Except.error assertMsg) := by
  have hfwd : (∃ ip, ipPredicate pc ip0 = Except.ok (true, ip)) →
      ∃ pre c post s, pc = pre ++ c :: post ∧ (∀ x ∈ pre, ¬ isPresentAssign x) ∧
        isPresentAssign c ∧ c.Val = some (AnyType.str s) := by
    rintro ⟨ip, h⟩
    obtain ⟨pre, c, post, h1, h2, h3, h4⟩ := ipPredicate_true_first pc ip0 ip h
    exact ⟨pre, c, post, ip, h1, h2, h3, h4⟩
  have hbwd : (∃ pre c post s, pc = pre ++ c :: post ∧ (∀ x ∈ pre, ¬ isPresentAssign x) ∧
        isPresentAssign c ∧ c.Val = some (AnyType.str s)) →
      ∃ ip, ipPredicate pc ip0 = Except.ok (true, ip) := by
    rintro ⟨pre, c, post, s, h1, h2, h3, h4⟩
    refine ⟨s, ?_⟩
    rw [h1]
    exact ipPredicate_first pre post c s ip0
      (fun x hx => (not_isPresentAssign_iff x).1 (h2 x hx)) h3.1 h3.2.1 h4
  refine ⟨⟨hfwd, hbwd⟩, ?_, ?_, ?_⟩
  · intro hstr
    constructor
    · intro h
      obtain ⟨pre, c, post, s, h1, _, h3, _⟩ := hfwd h
      exact ⟨c, by rw [h1]; simp, h3⟩
    · intro h
      obtain ⟨pre, c, post, h1, h2, h3⟩ := first_present_split pc h
      cases hv : c.Val with
      | none => exact absurd hv h3.2.2
      | some v =>
        obtain ⟨s, hs⟩ := hstr c (by rw [h1]; simp) v hv
        exact hbwd ⟨pre, c, post, s, h1, h2, h3, by rw [hv, hs]⟩
  · intro h
    apply ipPredicate_skip
    intro c hc hn ho
    rcases h c hc with h1 | h1
    · exact absurd hn h1
    · exact absurd ho h1
  · intro pre post c a h1 hpre hn ho hv ha
    rw [h1]
    exact ipPredicate_first_panics pre post c a ip0
      (fun x hx => (not_isPresentAssign_iff x).1 (hpre x hx)) hn ho hv ha

/-- C14 amended, at batches with a name that only starts like the watched path, with a
longer path, with another op, with the exact record, and with a value that is
not a string. -/
theorem ipPredicate_exact_match_witness :
    ipPredicate [⟨"guest", PropertyChangeOp.assign, some (AnyType.str "10.0.0.5")⟩,
        ⟨"guest.ipAddress.v4", PropertyChangeOp.assign, some (AnyType.str "10.0.0.5")⟩,
        ⟨"guest.ipAddress", PropertyChangeOp.add, some (AnyType.str "10.0.0.5")⟩] "" =
      Except.ok (false, "") ∧
    (∃ ip, ipPredicate [⟨"guest", PropertyChangeOp.assign, some (AnyType.str "10.0.0.9")⟩,
        assignIP (some (AnyType.str "10.0.0.5"))] "" = Except.ok (true, ip)) ∧
    ipPredicate [assignIP none, assignIP (some (AnyType.bool true)),
        assignIP (some (AnyType.str "10.0.0.5"))] "" = Except.error assertMsg :=
  ⟨(ipPredicate_exact_match _ "").2.2.1 (by decide),
    ((ipPredicate_exact_match _ "").2.1 (by
      intro c hc v hv
      simp only [List.mem_cons, List.mem_singleton, List.not_mem_nil, or_false] at hc
      rcases hc with rfl | rfl
      · exact ⟨"10.0.0.9", (Option.some.inj hv).symm⟩
      · exact ⟨"10.0.0.5", (Option.some.inj hv).symm⟩)).2
      ⟨assignIP (some (AnyType.str "10.0.0.5")), by decide, rfl, rfl, by decide⟩,
    (ipPredicate_exact_match _ "").2.2.2 [assignIP none]
      [assignIP (some (AnyType.str "10.0.0.5"))] (assignIP (some (AnyType.bool true)))
      (AnyType.bool true) rfl
      (by
        intro x hx
        rcases List.mem_singleton.1 hx with rfl
        exact fun h => h.2.2 rfl)
      rfl rfl rfl (by intro s h; cases h)⟩

/-! ## Device configuration -/

/-- The spec generated for one device: either adding it dereferences a nil
pointer and the loop body panics, or a spec is generated and it is the entry
the claim describes. -/
theorem deviceChange_cases (op : VirtualDeviceConfigSpecOperation)
    (fop : VirtualDeviceConfigSpecFileOperation) (device : BaseVirtualDevice) :
    (op = VirtualDeviceConfigSpecOperation.add ∧ nilDeref device ∧
        deviceChange op fop device = Except.error Govc.nilMsg) ∨
      (¬ (op = VirtualDeviceConfigSpecOperation.add ∧ nilDeref device) ∧
        ∃ cs, deviceChange op fop device = Except.ok cs ∧ claimedEntry op fop device cs) := by
  cases device with
  | other t k =>
    right
    refine ⟨?_, _, rfl, rfl, rfl, rfl⟩
    rintro ⟨_, h | ⟨d, h, _⟩⟩ <;> cases h
  | disk dp =>
    by_cases hop : op = VirtualDeviceConfigSpecOperation.add
    · cases dp with
      | none =>
        left
        exact ⟨hop, Or.inl rfl, by simp [deviceChange, hop]⟩
      | some d =>
        by_cases hcap : d.CapacityInKB = 0
        · cases hb : d.Backing with
          | none =>
            right
            refine ⟨?_, ⟨_, op, VirtualDeviceConfigSpecFileOperation.empty⟩, ?_, rfl, rfl, ?_, ?_⟩
            · rintro ⟨_, h | ⟨d1, h, _, h2⟩⟩
              · cases h
              · cases h
                rw [hb] at h2
                cases h2
            · simp [deviceChange, hop, hcap, childDisk, hb]
            · intro _; rfl
            · intro hne
              exact absurd ⟨hop, d, rfl, hcap, by rw [hb]; simp⟩ hne
          | some bk =>
            cases bk with
            | other t =>
              right
              refine ⟨?_, ⟨_, op, VirtualDeviceConfigSpecFileOperation.empty⟩, ?_, rfl, rfl,
                ?_, ?_⟩
              · rintro ⟨_, h | ⟨d1, h, _, h2⟩⟩
                · cases h
                · cases h
                  rw [hb] at h2
                  cases h2
              · simp [deviceChange, hop, hcap, childDisk, hb]
              · intro _; rfl
              · intro hne
                exact absurd ⟨hop, d, rfl, hcap, by rw [hb]; simp⟩ hne
            | flatVer2 bp =>
              cases bp with
              | none =>
                left
                exact ⟨hop, Or.inr ⟨d, rfl, hcap, hb⟩,
                  by simp [deviceChange, hop, hcap, childDisk, hb]⟩
              | some b =>
                right
                have hnd : ¬ (op = VirtualDeviceConfigSpecOperation.add ∧
                    nilDeref (BaseVirtualDevice.disk (some d))) := by
                  rintro ⟨_, h | ⟨d1, h, _, h2⟩⟩
                  · cases h
                  · cases h
                    rw [hb] at h2
                    cases h2
                by_cases hpar : b.Parent = []
                · refine ⟨hnd, ⟨_, op, VirtualDeviceConfigSpecFileOperation.empty⟩, ?_, rfl, rfl,
                    ?_, ?_⟩
                  · simp [deviceChange, hop, hcap, childDisk, hb, hpar]
                  · intro _; rfl
                  · intro hne
                    refine absurd ⟨hop, d, rfl, hcap, ?_⟩ hne
                    rintro ⟨b1, h1, h2⟩
                    rw [hb] at h1
                    cases h1
                    exact h2 hpar
                · refine ⟨hnd, ⟨_, op, fop⟩, ?_, rfl, rfl, ?_, ?_⟩
                  · simp [deviceChange, hop, hcap, childDisk, hb, hpar]
                  · rintro ⟨_, d1, h1, _, h3⟩
                    cases h1
                    exact absurd ⟨b, hb, hpar⟩ h3
                  · intro _; rfl
        · right
          refine ⟨?_, ⟨_, op, fop⟩, ?_, rfl, rfl, ?_, ?_⟩
          · rintro ⟨_, h | ⟨d1, h, h1, _⟩⟩
            · cases h
            · cases h
              exact hcap h1
          · simp [deviceChange, hop, hcap]
          · rintro ⟨_, d1, h1, h2, _⟩
            cases h1
            exact absurd h2 hcap
          · intro _; rfl
    · right
      refine ⟨fun h => hop h.1, ⟨_, op, fop⟩, ?_, rfl, rfl, ?_, ?_⟩
      · simp [deviceChange, hop]
      · intro h
        exact absurd h.1 hop
      · intro _; rfl

/-- The loop of `configureDevice` on devices none of which faults: one generated spec
per device is appended, in order, and each is the entry the claim describes. -/
theorem deviceChanges_ok (op : VirtualDeviceConfigSpecOperation)
    (fop : VirtualDeviceConfigSpecFileOperation) (devices : List BaseVirtualDevice)
    (acc : List VirtualDeviceConfigSpec)
    (h : ∀ device ∈ devices, ¬ (op = VirtualDeviceConfigSpecOperation.add ∧ nilDeref device)) :
    ∃ new, deviceChanges op fop devices acc = Except.ok (acc ++ new) ∧
      List.Forall₂ (claimedEntry op fop) devices new := by
  induction devices generalizing acc with
  | nil => exact ⟨[], by simp [deviceChanges], List.Forall₂.nil⟩
  | cons d devices ih =>
    rcases deviceChange_cases op fop d with ⟨h1, h2, _⟩ | ⟨_, cs, h3, h4⟩
    · exact absurd ⟨h1, h2⟩ (h d (List.mem_cons_self _ _))
    · obtain ⟨new, h5, h6⟩ := ih (acc ++ [cs])
        (fun x hx => h x (List.mem_cons_of_mem _ hx))
      refine ⟨cs :: new, ?_, List.Forall₂.cons h4 h6⟩
      rw [deviceChanges]
      simp only [h3]
      rw [h5]
      simp

/-- The loop of `configureDevice` panics when adding one of the devices dereferences a
nil pointer. -/
theorem deviceChanges_panic (op : VirtualDeviceConfigSpecOperation)
    (fop : VirtualDeviceConfigSpecFileOperation) (devices : List BaseVirtualDevice)
    (acc : List VirtualDeviceConfigSpec)
    (h : ∃ device ∈ devices, op = VirtualDeviceConfigSpecOperation.add ∧ nilDeref device) :
    deviceChanges op fop devices acc = Except.error Govc.nilMsg := by
  induction devices generalizing acc with
  | nil =>
    obtain ⟨d, hd, _⟩ := h
    exact absurd hd (List.not_mem_nil _)
  | cons d devices ih =>
    rcases deviceChange_cases op fop d with ⟨_, _, h3⟩ | ⟨h1, cs, h3, _⟩
    · rw [deviceChanges]
      simp only [h3]
    · rw [deviceChanges]
      simp only [h3]
      apply ih
      obtain ⟨x, hx, hn⟩ := h
      rcases List.mem_cons.1 hx with rfl | hx
      · exact absurd hn h1
      · exact ⟨x, hx, hn⟩

/-- The run of `configureDevice`.  When no device faults: one `Reconfigure` with one
claimed entry per device, in order, then the task wait unless `Reconfigure`
failed, whose error is returned.  When a device faults: a panic and no call. -/
theorem configureDevice_run (srv : Reconfigurer) (op : VirtualDeviceConfigSpecOperation)
    (fop : VirtualDeviceConfigSpecFileOperation) (devices : List BaseVirtualDevice) :
    ((∀ device ∈ devices, ¬ (op = VirtualDeviceConfigSpecOperation.add ∧ nilDeref device)) →
      ∃ spec,
        List.Forall₂ (claimedEntry op fop) devices spec.DeviceChange ∧
        (∀ e, srv.reconfigure = some e →
          VirtualMachine.configureDevice srv op fop devices =
            ⟨[DeviceCall.reconfigure spec], Outcome.returned (some e)⟩) ∧
        (srv.reconfigure = none →
          VirtualMachine.configureDevice srv op fop devices =
            ⟨[DeviceCall.reconfigure spec, DeviceCall.taskWait],
              Outcome.returned srv.taskWait⟩)) ∧
    ((∃ device ∈ devices, op = VirtualDeviceConfigSpecOperation.add ∧ nilDeref device) →
      VirtualMachine.configureDevice srv op fop devices =
        ⟨[], Outcome.panicked Govc.nilMsg⟩) := by
  constructor
  · intro h
    obtain ⟨new, h1, h2⟩ := deviceChanges_ok op fop devices [] h
    rw [List.nil_append] at h1
    refine ⟨⟨new⟩, h2, ?_, ?_⟩
    · intro e he
      simp [VirtualMachine.configureDevice, h1, he]
    · intro he
      simp [VirtualMachine.configureDevice, h1, he]
  · intro h
    simp [VirtualMachine.configureDevice, deviceChanges_panic op fop devices [] h]

/-- C15: for every device that is a `VirtualDisk` and every non-empty `fop`, the generated
spec has an empty `FileOperation` iff the operation is add, the disk's `CapacityInKB`
is 0 and the disk is not a child disk (its backing is not a flat-ver2 backing
with a non-nil `Parent`); in every other case the disk's `FileOperation` is `fop`.  A
spec is generated unless adding the disk dereferences a nil pointer.  For a
device that is not a disk `FileOperation` is left empty. -/
theorem deviceChange_fileOperation (op : VirtualDeviceConfigSpecOperation)
    (fop : VirtualDeviceConfigSpecFileOperation)
    (hfop : fop ≠ VirtualDeviceConfigSpecFileOperation.empty) :
    (∀ (dp : Option VirtualDisk) (spec : VirtualDeviceConfigSpec),
      deviceChange op fop (BaseVirtualDevice.disk dp) = Except.ok spec →
      (spec.FileOperation = VirtualDeviceConfigSpecFileOperation.empty ↔
        (op = VirtualDeviceConfigSpecOperation.add ∧
          ∃ d, dp = some d ∧ d.CapacityInKB = 0 ∧
            ¬ ∃ b, d.Backing = some (BaseVirtualDeviceBackingInfo.flatVer2 (some b)) ∧
              b.Parent ≠ [])) ∧
      (¬ (op = VirtualDeviceConfigSpecOperation.add ∧
          ∃ d, dp = some d ∧ d.CapacityInKB = 0 ∧
            ¬ ∃ b, d.Backing = some (BaseVirtualDeviceBackingInfo.flatVer2 (some b)) ∧
              b.Parent ≠ []) →
        spec.FileOperation = fop)) ∧
    (∀ dp : Option VirtualDisk,
      (∃ spec, deviceChange op fop (BaseVirtualDevice.disk dp) = Except.ok spec) ↔
        ¬ (op = VirtualDeviceConfigSpecOperation.add ∧
          (dp = none ∨ ∃ d, dp = some d ∧ d.CapacityInKB = 0 ∧
            d.Backing = some (BaseVirtualDeviceBackingInfo.flatVer2 none)))) ∧
    (∀ (t : String) (k : Int),
      deviceChange op fop (BaseVirtualDevice.other t k) =
        Except.ok ⟨BaseVirtualDevice.other t k, op,
          VirtualDeviceConfigSpecFileOperation.empty⟩) := by
  refine ⟨?_, ?_, fun t k => rfl⟩
  · intro dp spec hs
    rcases deviceChange_cases op fop (BaseVirtualDevice.disk dp) with
      ⟨_, _, h3⟩ | ⟨_, cs, h3, _, _, h6, h7⟩
    · rw [hs] at h3
      exact absurd h3 (by simp)
    · rw [hs] at h3
      injection h3 with h3
      subst h3
      refine ⟨⟨?_, h6⟩, h7⟩
      intro he
      by_contra hne
      have := h7 hne
      rw [he] at this
      exact hfop this.symm
  · intro dp
    have hiff : nilDeref (BaseVirtualDevice.disk dp) ↔
        (dp = none ∨ ∃ d, dp = some d ∧ d.CapacityInKB = 0 ∧
          d.Backing = some (BaseVirtualDeviceBackingInfo.flatVer2 none)) := by
      unfold nilDeref
      constructor
      · rintro (h | ⟨d, h, h1, h2⟩)
        · cases h
          left; rfl
        · cases h
          right
          exact ⟨d, rfl, h1, h2⟩
      · rintro (h | ⟨d, h, h1, h2⟩)
        · left; rw [h]
        · right; exact ⟨d, by rw [h], h1, h2⟩
    rw [← hiff]
    rcases deviceChange_cases op fop (BaseVirtualDevice.disk dp) with
      ⟨h1, h2, h3⟩ | ⟨h1, cs, h3, _⟩
    · constructor
      · rintro ⟨spec, hs⟩
        rw [hs] at h3
        exact absurd h3 (by simp)
      · intro hn
        exact absurd ⟨h1, h2⟩ hn
    · exact ⟨fun _ => h1, fun _ => ⟨cs, h3⟩⟩

/-- C15, at a new disk, an existing disk and a child disk added with `create`. -/
theorem deviceChange_fileOperation_witness :
    (∃ spec, deviceChange VirtualDeviceConfigSpecOperation.add
      VirtualDeviceConfigSpecFileOperation.create
      (BaseVirtualDevice.disk (some ⟨2001, 0,
        some (BaseVirtualDeviceBackingInfo.flatVer2 (some ⟨"base.vmdk", []⟩))⟩)) =
        Except.ok spec) ∧
    ((⟨BaseVirtualDevice.disk (some ⟨2002, 0,
        some (BaseVirtualDeviceBackingInfo.flatVer2 (some ⟨"child.vmdk", ["base.vmdk"]⟩))⟩),
      VirtualDeviceConfigSpecOperation.add,
      VirtualDeviceConfigSpecFileOperation.create⟩ : VirtualDeviceConfigSpec).FileOperation =
        VirtualDeviceConfigSpecFileOperation.empty ↔
      (VirtualDeviceConfigSpecOperation.add = VirtualDeviceConfigSpecOperation.add ∧
        ∃ d, (some ⟨2002, 0, some (BaseVirtualDeviceBackingInfo.flatVer2
            (some ⟨"child.vmdk", ["base.vmdk"]⟩))⟩ : Option VirtualDisk) = some d ∧
          d.CapacityInKB = 0 ∧
          ¬ ∃ b, d.Backing = some (BaseVirtualDeviceBackingInfo.flatVer2 (some b)) ∧
            b.Parent ≠ [])) :=
  ⟨((deviceChange_fileOperation VirtualDeviceConfigSpecOperation.add
      VirtualDeviceConfigSpecFileOperation.create (by decide)).2.1 _).2 (by
        rintro ⟨_, h | ⟨d, h, _, h2⟩⟩
        · cases h
        · cases h
          cases h2),
    ((deviceChange_fileOperation VirtualDeviceConfigSpecOperation.add
      VirtualDeviceConfigSpecFileOperation.create (by decide)).1
        (some ⟨2002, 0,
          some (BaseVirtualDeviceBackingInfo.flatVer2 (some ⟨"child.vmdk", ["base.vmdk"]⟩))⟩)
        ⟨BaseVirtualDevice.disk (some ⟨2002, 0,
          some (BaseVirtualDeviceBackingInfo.flatVer2 (some ⟨"child.vmdk", ["base.vmdk"]⟩))⟩),
          VirtualDeviceConfigSpecOperation.add, VirtualDeviceConfigSpecFileOperation.create⟩
        rfl).1⟩

/-- A list of claimed entries has one entry per device, carrying the devices in
order and the operation. -/
theorem claimedEntry_list (op : VirtualDeviceConfigSpecOperation)
    (fop : VirtualDeviceConfigSpecFileOperation) (devices : List BaseVirtualDevice)
    (l : List VirtualDeviceConfigSpec) (h : List.Forall₂ (claimedEntry op fop) devices l) :
    l.length = devices.length ∧ l.map VirtualDeviceConfigSpec.Device = devices ∧
      ∀ cs ∈ l, cs.Operation = op := by
  induction h with
  | nil => simp
  | cons hd _ ih =>
    obtain ⟨h1, h2, h3⟩ := ih
    refine ⟨by simp [h1], by simp [hd.1, h2], ?_⟩
    intro cs hcs
    rcases List.mem_cons.1 hcs with rfl | hcs
    · exact hd.2.1
    · exact h3 cs hcs

/-- The run of `configureDevice` on devices none of which faults, with what the
submitted spec holds. -/
theorem configureDevice_submits (srv : Reconfigurer) (op : VirtualDeviceConfigSpecOperation)
    (fop : VirtualDeviceConfigSpecFileOperation) (devices : List BaseVirtualDevice)
    (h : ∀ device ∈ devices, ¬ (op = VirtualDeviceConfigSpecOperation.add ∧ nilDeref device)) :
    ∃ spec : VirtualMachineConfigSpec,
      spec.DeviceChange.length = devices.length ∧
      spec.DeviceChange.map VirtualDeviceConfigSpec.Device = devices ∧
      (∀ cs ∈ spec.DeviceChange, cs.Operation = op) ∧
      List.Forall₂ (claimedEntry op fop) devices spec.DeviceChange ∧
      (∀ e, srv.reconfigure = some e →
        VirtualMachine.configureDevice srv op fop devices =
          ⟨[DeviceCall.reconfigure spec], Outcome.returned (some e)⟩) ∧
      (srv.reconfigure = none →
        VirtualMachine.configureDevice srv op fop devices =
          ⟨[DeviceCall.reconfigure spec, DeviceCall.taskWait],
            Outcome.returned srv.taskWait⟩) := by
  obtain ⟨spec, h1, h2, h3⟩ := (configureDevice_run srv op fop devices).1 h
  obtain ⟨h4, h5, h6⟩ := claimedEntry_list op fop devices spec.DeviceChange h1
  exact ⟨spec, h4, h5, h6, h1, h2, h3⟩

/-- C16 fails as stated: `AddDevice` on a list holding a nil disk pointer panics at the
dereference of virtual_machine.go:208 and submits no `Reconfigure` spec. -/
theorem AddDevice_nil_disk_panics :
    VirtualMachine.AddDevice ⟨none, none⟩
        [BaseVirtualDevice.other "VirtualE1000" 4000, BaseVirtualDevice.disk none] =
      ⟨[], Outcome.panicked Govc.nilMsg⟩ := by
  decide

/-- C16, amended: for every list of devices `EditDevice` and `RemoveDevice` submit one
`Reconfigure` spec whose `DeviceChange` list has one entry per given device, in the
same order, carrying that device and the operation edit or remove, a disk
having the file operation replace or destroy; `AddDevice` does the same with the
operation add and the file operation create (none in the existing-disk special
case) for every list in which no device is a nil disk pointer or a disk of
capacity 0 with a nil flat-ver2 backing pointer, and panics without any call
otherwise.  A device that is not a disk has no file operation.  If `Reconfigure`
fails its error is returned and the task is not waited on; otherwise the task
is waited on and the result of the wait is returned. -/
theorem device_methods_submit_one_spec (srv : Reconfigurer) (devices : List BaseVirtualDevice) :
    (∃ spec : VirtualMachineConfigSpec,
      spec.DeviceChange.length = devices.length ∧
      spec.DeviceChange.map VirtualDeviceConfigSpec.Device = devices ∧
      (∀ cs ∈ spec.DeviceChange, cs.Operation = VirtualDeviceConfigSpecOperation.edit) ∧
      List.Forall₂ (claimedEntry VirtualDeviceConfigSpecOperation.edit
        VirtualDeviceConfigSpecFileOperation.replace) devices spec.DeviceChange ∧
      (∀ e, srv.reconfigure = some e →
        VirtualMachine.EditDevice srv devices =
          ⟨[DeviceCall.reconfigure spec], Outcome.returned (some e)⟩) ∧
      (srv.reconfigure = none →
        VirtualMachine.EditDevice srv devices =
          ⟨[DeviceCall.reconfigure spec, DeviceCall.taskWait],
            Outcome.returned srv.taskWait⟩)) ∧
    (∃ spec : VirtualMachineConfigSpec,
      spec.DeviceChange.length = devices.length ∧
      spec.DeviceChange.map VirtualDeviceConfigSpec.Device = devices ∧
      (∀ cs ∈ spec.DeviceChange, cs.Operation = VirtualDeviceConfigSpecOperation.remove) ∧
      List.Forall₂ (claimedEntry VirtualDeviceConfigSpecOperation.remove
        VirtualDeviceConfigSpecFileOperation.destroy) devices spec.DeviceChange ∧
      (∀ e, srv.reconfigure = some e →
        VirtualMachine.RemoveDevice srv devices =
          ⟨[DeviceCall.reconfigure spec], Outcome.returned (some e)⟩) ∧
      (srv.reconfigure = none →
        VirtualMachine.RemoveDevice srv devices =
          ⟨[DeviceCall.reconfigure spec, DeviceCall.taskWait],
            Outcome.returned srv.taskWait⟩)) ∧
    ((∀ device ∈ devices, ¬ nilDeref device) →
      ∃ spec : VirtualMachineConfigSpec,
        spec.DeviceChange.length = devices.length ∧
        spec.DeviceChange.map VirtualDeviceConfigSpec.Device = devices ∧
        (∀ cs ∈ spec.DeviceChange, cs.Operation = VirtualDeviceConfigSpecOperation.add) ∧
        List.Forall₂ (claimedEntry VirtualDeviceConfigSpecOperation.add
          VirtualDeviceConfigSpecFileOperation.create) devices spec.DeviceChange ∧
        (∀ e, srv.reconfigure = some e →
          VirtualMachine.AddDevice srv devices =
            ⟨[DeviceCall.reconfigure spec], Outcome.returned (some e)⟩) ∧
        (srv.reconfigure = none →
          VirtualMachine.AddDevice srv devices =
            ⟨[DeviceCall.reconfigure spec, DeviceCall.taskWait],
              Outcome.returned srv.taskWait⟩)) ∧
    ((∃ device ∈ devices, nilDeref device) →
      VirtualMachine.AddDevice srv devices = ⟨[], Outcome.panicked Govc.nilMsg⟩) ∧
    (∀ (op : VirtualDeviceConfigSpecOperation) (fop : VirtualDeviceConfigSpecFileOperation)
      (dp : Option VirtualDisk) (cs : VirtualDeviceConfigSpec),
      claimedEntry op fop (BaseVirtualDevice.disk dp) cs →
      ((op = VirtualDeviceConfigSpecOperation.add ∧
          ∃ d, dp = some d ∧ d.CapacityInKB = 0 ∧
            ¬ ∃ b, d.Backing = some (BaseVirtualDeviceBackingInfo.flatVer2 (some b)) ∧
              b.Parent ≠ []) →
        cs.FileOperation = VirtualDeviceConfigSpecFileOperation.empty) ∧
      (¬ (op = VirtualDeviceConfigSpecOperation.add ∧
          ∃ d, dp = some d ∧ d.CapacityInKB = 0 ∧
            ¬ ∃ b, d.Backing = some (BaseVirtualDeviceBackingInfo.flatVer2 (some b)) ∧
              b.Parent ≠ []) →
        cs.FileOperation = fop)) ∧
    (∀ (dp : Option VirtualDisk) (cs : VirtualDeviceConfigSpec),
      claimedEntry VirtualDeviceConfigSpecOperation.edit
        VirtualDeviceConfigSpecFileOperation.replace (BaseVirtualDevice.disk dp) cs →
      cs.FileOperation = VirtualDeviceConfigSpecFileOperation.replace) ∧
    (∀ (dp : Option VirtualDisk) (cs : VirtualDeviceConfigSpec),
      claimedEntry VirtualDeviceConfigSpecOperation.remove
        VirtualDeviceConfigSpecFileOperation.destroy (BaseVirtualDevice.disk dp) cs →
      cs.FileOperation = VirtualDeviceConfigSpecFileOperation.destroy) ∧
    (∀ (op : VirtualDeviceConfigSpecOperation) (fop : VirtualDeviceConfigSpecFileOperation)
      (t : String) (k : Int) (cs : VirtualDeviceConfigSpec),
      claimedEntry op fop (BaseVirtualDevice.other t k) cs →
      cs.FileOperation = VirtualDeviceConfigSpecFileOperation.empty) := by
  refine ⟨?_, ?_, ?_, ?_, ?_, ?_, ?_, ?_⟩
  · exact configureDevice_submits srv _ _ devices (fun _ _ h => by cases h.1)
  · exact configureDevice_submits srv _ _ devices (fun _ _ h => by cases h.1)
  · intro h
    exact configureDevice_submits srv _ _ devices (fun d hd hn => h d hd hn.2)
  · rintro ⟨d, hd, hn⟩
    exact (configureDevice_run srv _ _ devices).2 ⟨d, hd, rfl, hn⟩
  · intro op fop dp cs h
    exact h.2.2
  · intro dp cs h
    exact h.2.2.2 (fun hc => by cases hc.1)
  · intro dp cs h
    exact h.2.2.2 (fun hc => by cases hc.1)
  · intro op fop t k cs h
    exact h.2.2

/-- C16 amended, at a server whose `Reconfigure` fails and a list of a disk and a network
card, and at a list holding a nil backing pointer. -/
theorem device_methods_submit_one_spec_witness :
    (∃ spec : VirtualMachineConfigSpec,
      spec.DeviceChange.length = 2 ∧
      VirtualMachine.AddDevice ⟨some errTransport, none⟩
        [BaseVirtualDevice.disk (some ⟨2000, 1024, none⟩),
          BaseVirtualDevice.other "VirtualE1000" 4000] =
        ⟨[DeviceCall.reconfigure spec], Outcome.returned (some errTransport)⟩) ∧
    VirtualMachine.AddDevice ⟨none, none⟩
        [BaseVirtualDevice.disk (some ⟨2000, 0,
          some (BaseVirtualDeviceBackingInfo.flatVer2 none)⟩)] =
      ⟨[], Outcome.panicked Govc.nilMsg⟩ :=
  ⟨(fun ⟨spec, h1, _, _, _, h5, _⟩ => ⟨spec, h1, h5 errTransport rfl⟩)
      ((device_methods_submit_one_spec ⟨some errTransport, none⟩
        [BaseVirtualDevice.disk (some ⟨2000, 1024, none⟩),
          BaseVirtualDevice.other "VirtualE1000" 4000]).2.2.1 (by
            intro d hd
            simp only [List.mem_cons, List.mem_singleton, List.not_mem_nil, or_false] at hd
            rcases hd with rfl | rfl
            · rintro (h | ⟨d1, h, h1, _⟩)
              · cases h
              · cases h
                exact absurd h1 (by decide)
            · rintro (h | ⟨d1, h, _⟩) <;> cases h)),
    (device_methods_submit_one_spec ⟨none, none⟩
        [BaseVirtualDevice.disk (some ⟨2000, 0,
          some (BaseVirtualDeviceBackingInfo.flatVer2 none)⟩)]).2.2.2.1
      ⟨_, List.mem_cons_self _ _, Or.inr ⟨_, rfl, rfl, rfl⟩⟩⟩

/-! ## The batch that satisfies the wait -/

/-- When the predicate returns false, the batch holds no `guest.ipAddress` assign with
a value and the captured `ip` is unchanged. -/
theorem ipPredicate_false (pc : List PropertyChange) (ip1 ip2 : String)
    (h : ipPredicate pc ip1 = Except.ok (false, ip2)) :
    ip2 = ip1 ∧ ∀ x ∈ pc, ¬ isPresentAssign x := by
  have hno : ∀ x ∈ pc, ¬ isPresentAssign x := by
    intro x hx hp
    obtain ⟨pre, c, post, h1, h2, h3⟩ := first_present_split pc ⟨x, hx, hp⟩
    have hpre : ∀ y ∈ pre, y.Name = "guest.ipAddress" → y.Op = PropertyChangeOpAssign →
        y.Val = none := fun y hy => (not_isPresentAssign_iff y).1 (h2 y hy)
    cases hv : c.Val with
    | none => exact absurd hv h3.2.2
    | some a =>
      by_cases hs : ∃ s, a = AnyType.str s
      · obtain ⟨s, rfl⟩ := hs
        have e := ipPredicate_first pre post c s ip1 hpre h3.1 h3.2.1 hv
        rw [← h1, h] at e
        injection e with e
        exact absurd (Prod.mk.inj e).1 (by simp)
      · have e := ipPredicate_first_panics pre post c a ip1 hpre h3.1 h3.2.1 hv
          (fun s hc => hs ⟨s, hc⟩)
        rw [← h1, h] at e
        exact absurd e (by simp)
  refine ⟨?_, hno⟩
  have e := ipPredicate_skip pc ip1 (fun x hx => (not_isPresentAssign_iff x).1 (hno x hx))
  rw [h] at e
  injection e with e
  exact (Prod.mk.inj e).2

/-- The wait passes over deliveries that are batches on which the predicate
returns false. -/
theorem Wait_skip (before ds : List Delivery) (ip0 : String)
    (h : ∀ d ∈ before, ∃ pc, d = Delivery.batch pc ∧ ∀ x ∈ pc, ¬ isPresentAssign x) :
    Wait ipPredicate (before ++ ds) ip0 = Wait ipPredicate ds ip0 := by
  induction before with
  | nil => rfl
  | cons d before ih =>
    obtain ⟨pc, hd, hpc⟩ := h d (List.mem_cons_self _ _)
    have e := ipPredicate_skip pc ip0 (fun x hx => (not_isPresentAssign_iff x).1 (hpc x hx))
    rw [hd, List.cons_append, Wait]
    simp only [e]
    exact ih (fun x hx => h x (List.mem_cons_of_mem _ hx))

/-- A wait that ends with nil splits at the batch on which the predicate returned
true; every delivery before it is a batch on which the predicate returned
false. -/
theorem Wait_success_first (ds : List Delivery) (ip0 ip : String)
    (h : Wait ipPredicate ds ip0 = (Outcome.returned none, ip)) :
    ∃ before pc after, ds = before ++ Delivery.batch pc :: after ∧
      (∀ d ∈ before, ∃ pc1, d = Delivery.batch pc1 ∧ ∀ x ∈ pc1, ¬ isPresentAssign x) ∧
      ipPredicate pc ip0 = Except.ok (true, ip) := by
  induction ds with
  | nil => simp [Wait] at h
  | cons d ds ih =>
    cases d with
    | fail err => simp [Wait] at h
    | batch pc =>
      rw [Wait] at h
      cases hf : ipPredicate pc ip0 with
      | error m => simp [hf] at h
      | ok r =>
        obtain ⟨b, s1⟩ := r
        cases b with
        | true =>
          simp only [hf] at h
          have hs : s1 = ip := (Prod.mk.inj h).2
          exact ⟨[], pc, ds, rfl, by simp, by rw [hf, hs]⟩
        | false =>
          simp only [hf] at h
          obtain ⟨hs, hno⟩ := ipPredicate_false pc ip0 s1 hf
          rw [hs] at h
          obtain ⟨before, pc1, after, hd, hb, hr⟩ := ih h
          refine ⟨Delivery.batch pc :: before, pc1, after, by rw [hd]; rfl, ?_, hr⟩
          intro x hx
          rcases List.mem_cons.1 hx with rfl | hx
          · exact ⟨pc, rfl, hno⟩
          · exact hb x hx

/-- What `VirtualMachine.WaitForIP` returns when the first delivery that is not a batch
without address is a batch whose first `guest.ipAddress` assign with a value carries
the string `s`. -/
theorem WaitForIP_at_first_present (before : List Delivery) (pre post : List PropertyChange)
    (c : PropertyChange) (s : String) (rest : List Delivery)
    (hbefore : ∀ d ∈ before, ∃ pc, d = Delivery.batch pc ∧ ∀ x ∈ pc, ¬ isPresentAssign x)
    (hpre : ∀ x ∈ pre, ¬ isPresentAssign x)
    (hc : isPresentAssign c) (hv : c.Val = some (AnyType.str s)) :
    VirtualMachine.WaitForIP (before ++ Delivery.batch (pre ++ c :: post) :: rest) =
      IPOutcome.returned s none := by
  have e := ipPredicate_first pre post c s ""
    (fun x hx => (not_isPresentAssign_iff x).1 (hpre x hx)) hc.1 hc.2.1 hv
  unfold VirtualMachine.WaitForIP
  rw [Wait_skip before _ "" hbefore]
  simp [Wait, e, waitResult]

/-- C10, amended: first-write-wins within a batch.  A batch is delivered to the
predicate when the predicate returned false on every delivery before it; for
every such batch, if its first `guest.ipAddress` assign with a value carries the
string s, the predicate returns true there with s, whatever address it held and
whatever records follow in the batch, and `WaitForIP` reports s, whatever is
delivered afterwards. -/
theorem WaitForIP_first_write_wins (before : List Delivery) (pre post : List PropertyChange)
    (c : PropertyChange) (s : String) (rest : List Delivery)
    (hbefore : ∀ d ∈ before, ∃ pc, d = Delivery.batch pc ∧
      ∃ ip1 ip2, ipPredicate pc ip1 = Except.ok (false, ip2))
    (hpre : ∀ x ∈ pre, ¬ isPresentAssign x)
    (hc : isPresentAssign c) (hv : c.Val = some (AnyType.str s)) :
    (∀ ip0, ipPredicate (pre ++ c :: post) ip0 = Except.ok (true, s)) ∧
    VirtualMachine.WaitForIP (before ++ Delivery.batch (pre ++ c :: post) :: rest) =
      IPOutcome.returned s none := by
  refine ⟨fun ip0 => ipPredicate_first pre post c s ip0
    (fun x hx => (not_isPresentAssign_iff x).1 (hpre x hx)) hc.1 hc.2.1 hv, ?_⟩
  apply WaitForIP_at_first_present before pre post c s rest _ hpre hc hv
  intro d hd
  obtain ⟨pc, hpc, ip1, ip2, hf⟩ := hbefore d hd
  exact ⟨pc, hpc, (ipPredicate_false pc ip1 ip2 hf).2⟩

/-- C10 amended, at a second delivery with two assigns carrying values after one
without, the first delivery carrying no address. -/
theorem WaitForIP_first_write_wins_witness :
    VirtualMachine.WaitForIP ([Delivery.batch [assignIP none]] ++
      Delivery.batch ([assignIP none] ++ assignIP (some (AnyType.str "10.0.0.1")) ::
        [assignIP (some (AnyType.str "10.0.0.2"))]) :: [Delivery.fail errTransport]) =
      IPOutcome.returned "10.0.0.1" none :=
  (WaitForIP_first_write_wins [Delivery.batch [assignIP none]] [assignIP none]
    [assignIP (some (AnyType.str "10.0.0.2"))]
    (assignIP (some (AnyType.str "10.0.0.1"))) "10.0.0.1" [Delivery.fail errTransport]
    (by
      intro d hd
      rcases List.mem_singleton.1 hd with rfl
      exact ⟨[assignIP none], rfl, "", "", rfl⟩)
    (by
      intro x hx
      rcases List.mem_singleton.1 hx with rfl
      exact fun h => h.2.2 rfl)
    ⟨rfl, rfl, by decide⟩ rfl).2

/-- C17: `VirtualMachine.WaitForIP` returns an address with a nil error when the wait
succeeds, and exactly then: the deliveries split at the batch that satisfied the
predicate, every delivery before it being a batch without address, and the
address returned is the string of the first `guest.ipAddress` assign with a present
value in that batch.  When the wait returns an error it returns the empty
string with that same error, whatever address the closure holds. -/
theorem WaitForIP_result :
    (∀ (ds : List Delivery), (Wait ipPredicate ds "").1 = Outcome.returned none →
      ∃ ip, VirtualMachine.WaitForIP ds = IPOutcome.returned ip none) ∧
    (∀ (ds : List Delivery) (ip : String),
      VirtualMachine.WaitForIP ds = IPOutcome.returned ip none →
      ∃ before pre c post after,
        ds = before ++ Delivery.batch (pre ++ c :: post) :: after ∧
        (∀ d ∈ before, ∃ pc, d = Delivery.batch pc ∧ ∀ x ∈ pc, ¬ isPresentAssign x) ∧
        (∀ x ∈ pre, ¬ isPresentAssign x) ∧ isPresentAssign c ∧
        c.Val = some (AnyType.str ip)) ∧
    (∀ (before : List Delivery) (pre post : List PropertyChange) (c : PropertyChange)
      (s : String) (after : List Delivery),
      (∀ d ∈ before, ∃ pc, d = Delivery.batch pc ∧ ∀ x ∈ pc, ¬ isPresentAssign x) →
      (∀ x ∈ pre, ¬ isPresentAssign x) → isPresentAssign c → c.Val = some (AnyType.str s) →
      VirtualMachine.WaitForIP (before ++ Delivery.batch (pre ++ c :: post) :: after) =
        IPOutcome.returned s none) ∧
    (∀ (ds : List Delivery) (e : GoError),
      (Wait ipPredicate ds "").1 = Outcome.returned (some e) →
      VirtualMachine.WaitForIP ds = IPOutcome.returned "" (some e)) ∧
    (∀ (e : GoError) (ip : String), waitResult (some e) ip = ("", some e)) ∧
    (∀ ip : String, waitResult none ip = (ip, none)) := by
  refine ⟨?_, ?_, ?_, ?_, fun _ _ => rfl, fun _ => rfl⟩
  · intro ds h
    unfold VirtualMachine.WaitForIP
    cases hw : Wait ipPredicate ds "" with
    | mk o ip1 =>
      rw [hw] at h
      simp only at h
      subst h
      exact ⟨ip1, rfl⟩
  · intro ds ip h
    unfold VirtualMachine.WaitForIP at h
    cases hw : Wait ipPredicate ds "" with
    | mk o ip1 =>
      rw [hw] at h
      cases o with
      | blocked => simp at h
      | panicked m => simp at h
      | returned err =>
        cases err with
        | some e => simp [waitResult] at h
        | none =>
          simp [waitResult] at h
          subst h
          obtain ⟨before, pc, after, hd, hb, hr⟩ := Wait_success_first ds "" ip1 hw
          obtain ⟨pre, c, post, h1, h2, h3, h4⟩ := ipPredicate_true_first pc "" ip1 hr
          exact ⟨before, pre, c, post, after, by rw [hd, h1], hb, h2, h3, h4⟩
  · intro before pre post c s after hb hpre hc hv
    exact WaitForIP_at_first_present before pre post c s after hb hpre hc hv
  · intro ds e h
    unfold VirtualMachine.WaitForIP
    cases hw : Wait ipPredicate ds "" with
    | mk o ip1 =>
      rw [hw] at h
      simp only at h
      subst h
      rfl

/-- C17, at a wait that fails after a batch without address and at a wait that succeeds. -/
theorem WaitForIP_result_witness :
    VirtualMachine.WaitForIP [Delivery.batch [assignIP none], Delivery.fail errTransport] =
      IPOutcome.returned "" (some errTransport) ∧
    ∃ ip, VirtualMachine.WaitForIP [Delivery.batch [assignIP none],
      Delivery.batch [assignIP (some (AnyType.str "10.0.0.5"))]] = IPOutcome.returned ip none :=
  ⟨WaitForIP_result.2.2.2.1 _ errTransport (by decide), WaitForIP_result.1 _ (by decide)⟩

end Govmomi
